import Mathlib

/-! File input of the stanza log agent: configuration, discovery, decoding and
line mode.

A shallow embedding of

* `operator/helper/decoder.go` (namespace `Stanza.Helper`),
* `operator/builtin/input/file/config.go` (namespace `Stanza.File`),
* `plugin/builtin/fileinput/file_source.go` (namespace `Stanza.Fileinput`),
* the message loop of `operator/builtin/input/tcp/tcp.go` (namespace
  `Stanza.Tcp`), with `bufio.ScanLines` and the scanner that drives it,

followed by theorems about them.  Functions of the Go standard library, of
third-party packages and of repository files that are not at hand are fields
of the structure `Env`; every definition that calls one takes an `Env`.

Go's `int` is taken to be 64 bits wide, as on the 64-bit targets the agent is
released for; `int64`, `time.Duration` and `helper.ByteSize` values are
integers, and the conversion `int(x)` is written out as `intOfInt64`.
-/

set_option linter.dupNamespace false

namespace Stanza

/-! ## Values of library types -/

/-- Compiled regular expression (`*regexp.Regexp`), identified by the
expression handed to `regexp.Compile`. -/
structure Regexp where
  expr : String
  deriving DecidableEq, Repr

/-- Values of `encoding.Encoding` the decoder helper can hold: the three
encodings named in `encodingOverrides`, and an encoding found in the IANA
index. -/
inductive Encoding where
  | Nop
  | UTF8
  | UTF16LittleEndianIgnoreBOM
  | IANA (name : String)
  deriving DecidableEq, Repr

/-- A `float64`: a finite value, an infinity or not-a-number.  Only
the comparisons with zero are computed here; they follow IEEE 754 (negative
and positive zero are both `finite 0`). -/
inductive Float64 where
  | finite (q : ℚ)
  | posInf
  | negInf
  | nan
  deriving DecidableEq

/-- Go's `x < 0` on a `float64`. -/
def Float64.ltZero : Float64 → Bool
  | .finite q => decide (q < 0)
  | .negInf => true
  | .posInf => false
  | .nan => false

/-- Go's `x == 0` on a `float64`. -/
def Float64.eqZero : Float64 → Bool
  | .finite q => decide (q = 0)
  | _ => false

/-- The constant `time.Second`, in nanoseconds. -/
def timeSecond : Int := 1000000000

/-- The constant `time.Millisecond`, in nanoseconds. -/
def timeMillisecond : Int := 1000000

/-- Conversion `int(x)` of an `int64` on a target whose `int` has 64 bits:
the value is reduced to the signed 64-bit range. -/
def intOfInt64 (x : Int) : Int :=
  (x + 2 ^ 63) % 2 ^ 64 - 2 ^ 63

/-- The range of an `int64`. -/
def isInt64 (x : Int) : Prop := -2 ^ 63 ≤ x ∧ x < 2 ^ 63

instance (x : Int) : Decidable (isInt64 x) := by unfold isInt64; infer_instance

/-- Split functions (`bufio.SplitFunc`) that the builders can select. -/
inductive SplitFunc where
  | ScanLines
  | Newline (encoding : Encoding)
  | LineEnd (re : Regexp)
  | LineStart (re : Regexp)
  deriving DecidableEq, Repr

/-- Embeds `NewLineEndSplitFunc(re)`. -/
def NewLineEndSplitFunc (re : Regexp) : SplitFunc := .LineEnd re

/-- Embeds `NewLineStartSplitFunc(re)`. -/
def NewLineStartSplitFunc (re : Regexp) : SplitFunc := .LineStart re

namespace Helper

/-- The embedded `helper.InputConfig`, as far as `config.go` uses it: the two
arguments of `helper.NewInputConfig` and the `ID()` accessor. -/
structure InputConfig where
  OperatorID : String
  OperatorType : String
  deriving DecidableEq, Repr

/-- Embeds `helper.NewInputConfig(operatorID, operatorType)`. -/
def NewInputConfig (operatorID operatorType : String) : InputConfig :=
  { OperatorID := operatorID, OperatorType := operatorType }

/-- Embeds `c.ID()`. -/
def InputConfig.ID (c : InputConfig) : String := c.OperatorID

/-- The `helper.InputOperator` produced by the embedded configuration. -/
structure InputOperator where
  OperatorID : String
  OperatorType : String
  deriving DecidableEq, Repr

/-- Embeds `helper.Duration`, a wrapper of `time.Duration` (nanoseconds). -/
structure Duration where
  Duration : Int
  deriving DecidableEq, Repr

/-- Embeds `d.Raw()`. -/
def Duration.Raw (d : Helper.Duration) : Int := d.Duration

/-- Embeds `helper.NewScopedDBPersister(db, scope)`. -/
structure ScopedDBPersister where
  Database : String
  scope : String
  deriving DecidableEq, Repr

/-- Embeds `helper.DecoderConfig`. -/
structure DecoderConfig where
  Encoding : String
  deriving DecidableEq, Repr

/-- Embeds `NewDecoderConfig(e)`. -/
def NewDecoderConfig (e : String) : DecoderConfig := { Encoding := e }

/-- Embeds `helper.Decoder`.  The field `decoder` holds the encoding whose
`NewDecoder()` created the transformer, `decodeBuffer` the length of the
buffer. -/
structure Decoder where
  Encoding : Stanza.Encoding
  decoder : Stanza.Encoding
  decodeBuffer : Nat
  deriving DecidableEq, Repr

/-- Errors of `lookupEncoding`. -/
inductive DecoderError where
  | unsupportedEncoding (enc : String)
  | noCharmap (enc : String)
  deriving DecidableEq, Repr

end Helper

namespace Entry

/-- Embeds `entry.Field`, as far as `config.go` builds one. -/
inductive Field where
  | NilField
  | LabelField (label : String)
  deriving DecidableEq, Repr

/-- Embeds `entry.NewNilField()`. -/
def NewNilField : Field := .NilField

/-- Embeds `entry.NewLabelField(label)`. -/
def NewLabelField (label : String) : Field := .LabelField label

end Entry

/-- Embeds `operator.BuildContext`, as far as `config.go` reads it. -/
structure BuildContext where
  Database : String
  deriving DecidableEq, Repr

/-- Embeds `pg.BuildContext` of the plugin package. -/
structure PluginBuildContext where
  Logger : String
  Plugins : List String
  deriving DecidableEq, Repr

/-- Stand-in for the embedded `pg.DefaultPluginConfig`. -/
structure DefaultPluginConfig where
  PluginID : String
  deriving DecidableEq, Repr

/-- Stand-in for the embedded `pg.DefaultOutputterConfig`. -/
structure DefaultOutputterConfig where
  Output : String
  deriving DecidableEq, Repr

/-- Stand-in for `pg.DefaultPlugin`. -/
structure DefaultPlugin where
  PluginID : String
  deriving DecidableEq, Repr

/-- Stand-in for `pg.DefaultOutputter`. -/
structure DefaultOutputter where
  Output : String
  deriving DecidableEq, Repr

/-! ## The environment -/

/-- Functions called by the embedded code and defined elsewhere.

Standard library and third-party packages:
* `filepathMatch pattern name` is `filepath.Match`;
* `regexpError expr` is the error of `regexp.Compile(expr)`, `none` when the
  expression compiles;
* `stringsToLower` is `strings.ToLower`;
* `ianaEncoding name` is `ianaindex.IANA.Encoding(name)`: an error, or an
  encoding that may be `nil`;
* `md5Sum` is the MD5 digest, `base64Encode` is
  `base64.StdEncoding.EncodeToString`;
* `durationOfSeconds x` is `time.Duration(float64(time.Second) * x)`;
* `filepathDir` is `filepath.Dir`.

Repository code outside the embedded files:
* `helperInputBuild` is `helper.InputConfig.Build`;
* `newNewlineSplitFunc` is `NewNewlineSplitFunc`;
* `defaultPluginBuild`, `defaultOutputterBuild` are the `Build` methods of
  the embedded plugin configurations. -/
structure Env where
  filepathMatch : String → String → Except String Bool
  regexpError : String → Option String
  stringsToLower : String → String
  ianaEncoding : String → Except String (Option Encoding)
  md5Sum : List UInt8 → List UInt8
  base64Encode : List UInt8 → String
  durationOfSeconds : Float64 → Int
  filepathDir : String → String
  helperInputBuild : Helper.InputConfig → BuildContext → Except String Helper.InputOperator
  newNewlineSplitFunc : Encoding → Except String SplitFunc
  defaultPluginBuild : DefaultPluginConfig → String → Except String DefaultPlugin
  defaultOutputterBuild : DefaultOutputterConfig → List String → Except String DefaultOutputter

/-- Embeds `regexp.Compile(expr)`. -/
def regexpCompile (env : Env) (expr : String) : Except String Regexp :=
  match env.regexpError expr with
  | some err => .error err
  | none => .ok { expr := expr }

/-! ## `operator/helper/decoder.go` -/

namespace Helper

/-- The map `encodingOverrides`. -/
def encodingOverrides : List (String × Encoding) :=
  [ ("utf-16", .UTF16LittleEndianIgnoreBOM),
    ("utf16", .UTF16LittleEndianIgnoreBOM),
    ("utf8", .UTF8),
    ("ascii", .UTF8),
    ("us-ascii", .UTF8),
    ("nop", .Nop),
    ("", .Nop) ]

/-- Embeds `lookupEncoding(enc)`. -/
def lookupEncoding (env : Env) (enc : String) : Except DecoderError Encoding :=
  match encodingOverrides.lookup (env.stringsToLower enc) with
  | some encoding => .ok encoding
  | none =>
    match env.ianaEncoding enc with
    | .error _ => .error (.unsupportedEncoding enc)
    | .ok none => .error (.noCharmap enc)
    | .ok (some encoding) => .ok encoding

/-- Embeds `DecoderConfig.Build()`: the decoder and the error returned with it
(`none` for `nil`).  The decoder starts with the no-op encoding, its
transformer and a buffer of `1<<12` bytes; only the field `Encoding` is
assigned after a successful lookup. -/
def DecoderConfig.Build (env : Env) (c : DecoderConfig) : Decoder × Option DecoderError :=
  let decoder : Decoder := { Encoding := .Nop, decoder := .Nop, decodeBuffer := 2 ^ 12 }
  match lookupEncoding env c.Encoding with
  | .error err => (decoder, some err)
  | .ok enc => ({ decoder with Encoding := enc }, none)

end Helper

/-! ## `operator/builtin/input/file/config.go` -/

namespace File

/-- The constant `defaultMaxLogSize`. -/
def defaultMaxLogSize : Int := 1024 * 1024

/-- The constant `defaultMaxConcurrentFiles`. -/
def defaultMaxConcurrentFiles : Int := 1024

/-- Embeds `MultilineConfig`. -/
structure MultilineConfig where
  LineStartPattern : String
  LineEndPattern : String
  deriving DecidableEq, Repr

/-- Embeds `InputConfig`, the configuration of a file input operator.  The pointer
`Multiline` is `none` when it is `nil`. -/
structure InputConfig where
  InputConfig : Helper.InputConfig
  DecoderConfig : Helper.DecoderConfig
  Include : List String
  Exclude : List String
  PollInterval : Helper.Duration
  Multiline : Option MultilineConfig
  IncludeFileName : Bool
  IncludeFilePath : Bool
  StartAt : String
  MaxLogSize : Int
  MaxConcurrentFiles : Int
  deriving DecidableEq, Repr

/-- Embeds `NewInputConfig(operatorID)`: fields that the composite literal does not
name have their zero value. -/
def NewInputConfig (operatorID : String) : File.InputConfig :=
  { InputConfig := Helper.NewInputConfig operatorID "file_input"
    DecoderConfig := Helper.NewDecoderConfig "nop"
    Include := []
    Exclude := []
    PollInterval := { Duration := 200 * timeMillisecond }
    Multiline := none
    IncludeFileName := true
    IncludeFilePath := false
    StartAt := "end"
    MaxLogSize := defaultMaxLogSize
    MaxConcurrentFiles := defaultMaxConcurrentFiles }

/-- Stand-in for the type `Reader` of the operator's `knownFiles`. -/
structure Reader where
  Path : String
  deriving DecidableEq, Repr

/-- The `InputOperator` that `Build` fills in (the no-op `cancel` function is
left out; `SeenPaths` lists the keys of the map). -/
structure InputOperator where
  InputOperator : Helper.InputOperator
  decoder : Helper.Decoder
  Include : List String
  Exclude : List String
  SplitFunc : SplitFunc
  PollInterval : Int
  persist : Helper.ScopedDBPersister
  FilePathField : Entry.Field
  FileNameField : Entry.Field
  fingerprintBytes : Int
  startAtBeginning : Bool
  queuedMatches : List String
  firstCheck : Bool
  knownFiles : List Reader
  MaxLogSize : Int
  MaxConcurrentFiles : Int
  SeenPaths : List String
  deriving DecidableEq, Repr

/-- Errors returned by `InputConfig.Build` and `getSplitFunc`, one per
`return nil, ...` of the source; a string is the message of the wrapped
error. -/
inductive BuildError where
  | helperBuild (err : String)
  | includeEmpty
  | parseIncludeGlob (err : String)
  | parseExcludeGlob (err : String)
  | maxLogSizeNotPositive
  | maxConcurrentFilesNotPositive
  | decoder (err : Helper.DecoderError)
  | newlineSplitFunc (err : String)
  | onlyOnePatternCanBeSet
  | onePatternMustBeSet
  | compileLineEndRegex (err : String)
  | compileLineStartRegex (err : String)
  | unreachable
  | invalidStartAt (startAt : String)
  deriving DecidableEq, Repr

/-- The loop `for _, g := range globs` of `Build`: every glob is handed to
`filepath.Match(g, "matchstring")` and the first error ends the build. -/
def checkGlobs (env : Env) (wrap : String → BuildError) : List String → Except BuildError Unit
  | [] => .ok ()
  | g :: rest =>
    match env.filepathMatch g "matchstring" with
    | .error err => .error (wrap err)
    | .ok _ => checkGlobs env wrap rest

/-- Embeds `InputConfig.getSplitFunc(encoding)`. -/
def InputConfig.getSplitFunc (env : Env) (c : File.InputConfig) (encoding : Encoding) :
    Except BuildError SplitFunc :=
  match c.Multiline with
  | none =>
    match env.newNewlineSplitFunc encoding with
    | .error err => .error (.newlineSplitFunc err)
    | .ok f => .ok f
  | some multiline =>
    let endPattern := multiline.LineEndPattern
    let startPattern := multiline.LineStartPattern
    if endPattern ≠ "" ∧ startPattern ≠ "" then
      .error .onlyOnePatternCanBeSet
    else if endPattern = "" ∧ startPattern = "" then
      .error .onePatternMustBeSet
    else if endPattern ≠ "" then
      match regexpCompile env ("(?m)" ++ multiline.LineEndPattern) with
      | .error err => .error (.compileLineEndRegex err)
      | .ok re => .ok (NewLineEndSplitFunc re)
    else if startPattern ≠ "" then
      match regexpCompile env ("(?m)" ++ multiline.LineStartPattern) with
      | .error err => .error (.compileLineStartRegex err)
      | .ok re => .ok (NewLineStartSplitFunc re)
    else
      .error .unreachable

/-- The operator assembled at the end of `Build` (the composite literal and
the two metadata fields computed just before it). -/
def InputConfig.newOperator (c : File.InputConfig) (context : BuildContext)
    (inputOperator : Helper.InputOperator) (decoder : Helper.Decoder) (splitFunc : SplitFunc)
    (startAtBeginning : Bool) : File.InputOperator :=
  let fileNameField :=
    if c.IncludeFileName then Entry.NewLabelField "file_name" else Entry.NewNilField
  let filePathField :=
    if c.IncludeFilePath then Entry.NewLabelField "file_path" else Entry.NewNilField
  { InputOperator := inputOperator
    decoder := decoder
    Include := c.Include
    Exclude := c.Exclude
    SplitFunc := splitFunc
    PollInterval := c.PollInterval.Raw
    persist := { Database := context.Database, scope := c.InputConfig.ID }
    FilePathField := filePathField
    FileNameField := fileNameField
    fingerprintBytes := 1000
    startAtBeginning := startAtBeginning
    queuedMatches := []
    firstCheck := true
    knownFiles := []
    MaxLogSize := intOfInt64 c.MaxLogSize
    MaxConcurrentFiles := c.MaxConcurrentFiles
    SeenPaths := [] }

/-- Embeds `InputConfig.Build(context)`: the single operator of the returned slice,
or the error. -/
def InputConfig.Build (env : Env) (c : File.InputConfig) (context : BuildContext) :
    Except BuildError File.InputOperator :=
  match env.helperInputBuild c.InputConfig context with
  | .error err => .error (.helperBuild err)
  | .ok inputOperator =>
    if c.Include.length = 0 then .error .includeEmpty else
    match checkGlobs env .parseIncludeGlob c.Include with
    | .error err => .error err
    | .ok _ =>
    match checkGlobs env .parseExcludeGlob c.Exclude with
    | .error err => .error err
    | .ok _ =>
    if c.MaxLogSize ≤ 0 then .error .maxLogSizeNotPositive else
    if c.MaxConcurrentFiles ≤ 0 then .error .maxConcurrentFilesNotPositive else
    match c.DecoderConfig.Build env with
    | (_, some err) => .error (.decoder err)
    | (decoder, none) =>
    match c.getSplitFunc env decoder.Encoding with
    | .error err => .error err
    | .ok splitFunc =>
    if c.StartAt = "beginning" then
      .ok (c.newOperator context inputOperator decoder splitFunc true)
    else if c.StartAt = "end" then
      .ok (c.newOperator context inputOperator decoder splitFunc false)
    else
      .error (.invalidStartAt c.StartAt)

/-- Whether every check of `InputConfig.Build` other than the one of
`start_at` passes: the embedded configuration builds, `include` is not
empty, all globs parse, both limits are positive, the decoder builds and the
split function is found. -/
def InputConfig.validApartFromStartAt (env : Env) (c : File.InputConfig)
    (context : BuildContext) : Bool :=
  match env.helperInputBuild c.InputConfig context with
  | .error _ => false
  | .ok _ =>
    if c.Include.length = 0 then false else
    match checkGlobs env .parseIncludeGlob c.Include with
    | .error _ => false
    | .ok _ =>
    match checkGlobs env .parseExcludeGlob c.Exclude with
    | .error _ => false
    | .ok _ =>
    if c.MaxLogSize ≤ 0 then false else
    if c.MaxConcurrentFiles ≤ 0 then false else
    match c.DecoderConfig.Build env with
    | (_, some _) => false
    | (decoder, none) =>
    match c.getSplitFunc env decoder.Encoding with
    | .error _ => false
    | .ok _ => true

end File

/-! ## `plugin/builtin/fileinput/file_source.go` -/

namespace Fileinput

/-- Embeds `FileSourceMultilineConfig`. -/
structure FileSourceMultilineConfig where
  LineStartPattern : String
  LineEndPattern : String
  deriving DecidableEq, Repr

/-- Embeds `FileSourceConfig`; `PollInterval` is a `float64` number of seconds. -/
structure FileSourceConfig where
  DefaultPluginConfig : DefaultPluginConfig
  DefaultOutputterConfig : DefaultOutputterConfig
  Include : List String
  Exclude : List String
  PollInterval : Float64
  Multiline : Option FileSourceMultilineConfig
  deriving DecidableEq

/-- Modelled from the spec: the type `FileWatcher` (the Reader of one
tracked file), declared outside `file_source.go`.  `addr` is the address of
the watcher, which is what `==` on `*FileWatcher` compares; the other fields
are the arguments `NewFileWatcher` is called with, among them the resolved
path and the offset to start reading at. -/
structure FileWatcher where
  addr : Nat
  path : String
  output : DefaultOutputter
  startingOffset : Int
  splitFunc : Option SplitFunc
  pollInterval : Int
  deriving DecidableEq, Repr

/-- Modelled from the spec: the type `DirectoryWatcher`, declared outside
`file_source.go`; it identifies one directory by its path. -/
structure DirectoryWatcher where
  path : String
  deriving DecidableEq, Repr

/-- Embeds `FileSource`.  `SplitFunc` is `none` for a `nil` function;
`directoryWatchers` lists the entries of the map; channels, locks, the wait
group and the database handle are left out. -/
structure FileSource where
  DefaultPlugin : DefaultPlugin
  DefaultOutputter : DefaultOutputter
  Include : List String
  Exclude : List String
  PollInterval : Int
  SplitFunc : Option SplitFunc
  FingerprintBytes : Int
  fileWatchers : List FileWatcher
  directoryWatchers : List (String × DirectoryWatcher)
  deriving DecidableEq, Repr

/-- Errors returned by `FileSourceConfig.Build`. -/
inductive BuildError where
  | buildDefaultPlugin (err : String)
  | buildDefaultOutputter (err : String)
  | parseIncludeGlob (err : String)
  | parseExcludeGlob (err : String)
  | exactlyOnePatternMustBeSet
  | compileLineEndRegex (err : String)
  | compileLineStartRegex (err : String)
  | pollIntervalNegative
  deriving DecidableEq, Repr

/-- The loop `for _, g := range globs` of `Build`: every glob is handed to
`filepath.Match(g, "")` and the first error ends the build. -/
def checkGlobs (env : Env) (wrap : String → BuildError) : List String → Except BuildError Unit
  | [] => .ok ()
  | g :: rest =>
    match env.filepathMatch g "" with
    | .error err => .error (wrap err)
    | .ok _ => checkGlobs env wrap rest

/-- The end of `FileSourceConfig.Build`, from `// Parse the poll interval`
on, for the split function chosen before. -/
def FileSourceConfig.buildPlugin (env : Env) (c : FileSourceConfig)
    (defaultPlugin : DefaultPlugin) (defaultOutputter : DefaultOutputter)
    (splitFunc : Option SplitFunc) : Except BuildError FileSource :=
  if c.PollInterval.ltZero then .error .pollIntervalNegative else
  let pollInterval : Int :=
    if c.PollInterval.eqZero then 5 * timeSecond else env.durationOfSeconds c.PollInterval
  .ok
    { DefaultPlugin := defaultPlugin
      DefaultOutputter := defaultOutputter
      Include := c.Include
      Exclude := c.Exclude
      SplitFunc := splitFunc
      PollInterval := pollInterval
      FingerprintBytes := 100
      fileWatchers := []
      directoryWatchers := [] }

/-- Embeds `FileSourceConfig.Build(buildContext)`. -/
def FileSourceConfig.Build (env : Env) (c : FileSourceConfig) (buildContext : PluginBuildContext) :
    Except BuildError FileSource :=
  match env.defaultPluginBuild c.DefaultPluginConfig buildContext.Logger with
  | .error err => .error (.buildDefaultPlugin err)
  | .ok defaultPlugin =>
  match env.defaultOutputterBuild c.DefaultOutputterConfig buildContext.Plugins with
  | .error err => .error (.buildDefaultOutputter err)
  | .ok defaultOutputter =>
  match checkGlobs env .parseIncludeGlob c.Include with
  | .error err => .error err
  | .ok _ =>
  match checkGlobs env .parseExcludeGlob c.Exclude with
  | .error err => .error err
  | .ok _ =>
  match c.Multiline with
  | none => c.buildPlugin env defaultPlugin defaultOutputter (some .ScanLines)
  | some multiline =>
    let definedLineEndPattern := decide (multiline.LineEndPattern ≠ "")
    let definedLineStartPattern := decide (multiline.LineStartPattern ≠ "")
    if definedLineEndPattern = definedLineStartPattern then
      .error .exactlyOnePatternMustBeSet
    else if definedLineEndPattern then
      match regexpCompile env multiline.LineEndPattern with
      | .error err => .error (.compileLineEndRegex err)
      | .ok re => c.buildPlugin env defaultPlugin defaultOutputter (some (NewLineEndSplitFunc re))
    else if definedLineStartPattern then
      match regexpCompile env multiline.LineStartPattern with
      | .error err => .error (.compileLineStartRegex err)
      | .ok re => c.buildPlugin env defaultPlugin defaultOutputter (some (NewLineStartSplitFunc re))
    else
      c.buildPlugin env defaultPlugin defaultOutputter none

/-- Whether the steps of `FileSourceConfig.Build` that come before the
choice of the split function all pass: both embedded configurations build
and every include and exclude glob parses. -/
def FileSourceConfig.preambleOk (env : Env) (c : FileSourceConfig)
    (buildContext : PluginBuildContext) : Bool :=
  match env.defaultPluginBuild c.DefaultPluginConfig buildContext.Logger,
        env.defaultOutputterBuild c.DefaultOutputterConfig buildContext.Plugins,
        checkGlobs env .parseIncludeGlob c.Include,
        checkGlobs env .parseExcludeGlob c.Exclude with
  | .ok _, .ok _, .ok _, .ok _ => true
  | _, _, _, _ => false

/-- An open `*os.File`: the bytes of the file, and whether `Seek` fails on
it.  A read delivers the bytes that are there. -/
structure OsFile where
  content : List UInt8
  seekFails : Bool
  deriving DecidableEq, Repr

/-- The file system as one discovery step sees it.
* `glob pattern` is the list returned by `filepath.Glob` (its error is
  dropped by the caller);
* `stat path` is `os.Stat`: `none` for an error, else whether the path is a
  directory;
* `openFile path` is `os.Open`;
* `newDirectoryWatcher path` is the error of `NewDirectoryWatcher(path, f)`,
  `none` when the watcher is created;
* `watcherFingerprint w n` is `w.Fingerprint(n)`. -/
structure FileSystem where
  glob : String → List String
  stat : String → Option Bool
  openFile : String → Except String OsFile
  newDirectoryWatcher : String → Option String
  watcherFingerprint : FileWatcher → Int → String

/-- State of a started source: the `FileSource` itself, the addresses of
the watchers on which `Close()` has been called, and the number of
watchers allocated so far (the address of the next one). -/
structure State where
  source : FileSource
  closed : List Nat
  allocated : Nat
  deriving DecidableEq, Repr

/-- Embeds `isExcluded(path, excludes)`: the error of `filepath.Match` is dropped,
its result is then `false`. -/
def isExcluded (env : Env) (path : String) : List String → Bool
  | [] => false
  | excludePattern :: rest =>
    match env.filepathMatch excludePattern path with
    | .ok true => true
    | _ => isExcluded env path rest

/-- The inner loop of `globMatches` over the paths of one include pattern,
appending to `matched`. -/
def globMatchesInner (env : Env) (fs : FileSystem) (excludes : List String) :
    List String → List String → List String
  | [], matched => matched
  | path :: rest, matched =>
    match fs.stat path with
    | none => globMatchesInner env fs excludes rest matched
    | some true => globMatchesInner env fs excludes rest matched
    | some false =>
      if isExcluded env path excludes then globMatchesInner env fs excludes rest matched
      else globMatchesInner env fs excludes rest (matched ++ [path])

/-- The outer loop of `globMatches` over the include patterns. -/
def globMatchesLoop (env : Env) (fs : FileSystem) (excludes : List String) :
    List String → List String → List String
  | [], matched => matched
  | includePattern :: rest, matched =>
    globMatchesLoop env fs excludes rest
      (globMatchesInner env fs excludes (fs.glob includePattern) matched)

/-- Embeds `globMatches(includes, excludes)`. -/
def globMatches (env : Env) (fs : FileSystem) (includes excludes : List String) : List String :=
  globMatchesLoop env fs excludes includes []

/-- Embeds `io.ReadFull(file, buffer)` at offset 0: the buffer afterwards.  The
first `min(len(buffer), len(content))` bytes are overwritten. -/
def readFull (content buffer : List UInt8) : List UInt8 :=
  content.take buffer.length ++ buffer.drop content.length

/-- The buffer that `fingerprint` writes to the hash: `numBytes` zero bytes
overwritten by `io.ReadFull`.  `none` is a panic (failed `Seek`, or `make`
with a negative length). -/
def fingerprintBuffer (numBytes : Int) (file : OsFile) : Option (List UInt8) :=
  if file.seekFails then none
  else if numBytes < 0 then none
  else some (readFull file.content (List.replicate numBytes.toNat 0))

/-- Embeds `fingerprint(numBytes, file)`; `none` is a panic. -/
def fingerprint (env : Env) (numBytes : Int) (file : OsFile) : Option String :=
  match fingerprintBuffer numBytes file with
  | none => none
  | some buffer => some (env.base64Encode (env.md5Sum buffer))

/-- Modelled from the spec: the constructor `NewFileWatcher(path, output,
startingOffset, splitFunc, pollInterval, logger)`, declared outside
`file_source.go`; the watcher, allocated at address `addr`, keeps the
arguments. -/
def NewFileWatcher (addr : Nat) (path : String) (output : DefaultOutputter)
    (startingOffset : Int) (splitFunc : Option SplitFunc) (pollInterval : Int) : FileWatcher :=
  { addr := addr, path := path, output := output, startingOffset := startingOffset,
    splitFunc := splitFunc, pollInterval := pollInterval }

/-- The loop of `checkPath` over the tracked watchers, with the statement
`return true, 0, nil` that follows it: the triple
`(createWatcher, startingOffset, err)`. -/
def checkPathLoop (fs : FileSystem) (numBytes : Int) (fingerprint path : String) :
    List FileWatcher → Bool × Int × Option String
  | [] => (true, 0, none)
  | watcher :: rest =>
    if fs.watcherFingerprint watcher numBytes = fingerprint then
      if watcher.path = path then (false, 0, none)
      else checkPathLoop fs numBytes fingerprint path rest
    else checkPathLoop fs numBytes fingerprint path rest

/-- Embeds `f.checkPath(path, checkCopy)`: the triple
`(createWatcher, startingOffset, err)`; `none` is the panic of
`fingerprint`. -/
def FileSource.checkPath (env : Env) (fs : FileSystem) (f : FileSource) (path : String)
    (_checkCopy : Bool) : Option (Bool × Int × Option String) :=
  match fs.openFile path with
  | .error err => some (false, 0, some err)
  | .ok file =>
    match fingerprint env f.FingerprintBytes file with
    | none => none
    | some fingerprint =>
      some (checkPathLoop fs f.FingerprintBytes fingerprint path f.fileWatchers)

/-- Embeds `f.tryAddDirectory(ctx, path)` up to the start of the watcher's
goroutine. -/
def FileSource.tryAddDirectory (fs : FileSystem) (st : State) (path : String) : State :=
  match st.source.directoryWatchers.lookup path with
  | some _ => st
  | none =>
    match fs.newDirectoryWatcher path with
    | some _ => st
    | none =>
      { st with source := { st.source with
          directoryWatchers := st.source.directoryWatchers ++ [(path, { path := path })] } }

/-- The loop of `overwriteFileWatcher`: the tracked list afterwards, the
addresses of the watchers it closed, and the flag `overwritten`. -/
def overwriteLoop (watcher : FileWatcher) : List FileWatcher → List FileWatcher × List Nat × Bool
  | [] => ([], [], false)
  | trackedWatcher :: rest =>
    let (tracked, closed, overwritten) := overwriteLoop watcher rest
    if trackedWatcher.path = watcher.path then
      (watcher :: tracked, trackedWatcher.addr :: closed, true)
    else
      (trackedWatcher :: tracked, closed, overwritten)

/-- Embeds `f.overwriteFileWatcher(watcher)`: every tracked watcher with the path
of `watcher` is closed and its slot receives `watcher`; without such a slot
`watcher` is appended. -/
def FileSource.overwriteFileWatcher (st : State) (watcher : FileWatcher) : State :=
  match overwriteLoop watcher st.source.fileWatchers with
  | (tracked, closed, overwritten) =>
    let fileWatchers := if overwritten then tracked else tracked ++ [watcher]
    { st with source := { st.source with fileWatchers := fileWatchers },
              closed := st.closed ++ closed }

/-- Embeds `f.tryAddFile(ctx, path, globCheck)` up to the start of the watcher's
goroutine; `none` is a panic. -/
def FileSource.tryAddFile (env : Env) (fs : FileSystem) (st : State) (path : String)
    (globCheck : Bool) : Option State :=
  if isExcluded env path st.source.Exclude then some st
  else
    let st1 := FileSource.tryAddDirectory fs st (env.filepathDir path)
    match FileSource.checkPath env fs st1.source path (!globCheck) with
    | none => none
    | some (createWatcher, startingOffset, err) =>
      if err.isSome || !createWatcher then some st1
      else
        let watcher := NewFileWatcher st1.allocated path st1.source.DefaultOutputter
          startingOffset st1.source.SplitFunc st1.source.PollInterval
        some (FileSource.overwriteFileWatcher { st1 with allocated := st1.allocated + 1 } watcher)

/-- The loop `for _, match := range matches` of `Start`, calling
`f.tryAddFile(ctx, match, true)`. -/
def FileSource.addMatches (env : Env) (fs : FileSystem) : State → List String → Option State
  | st, [] => some st
  | st, path :: rest =>
    match FileSource.tryAddFile env fs st path true with
    | none => none
    | some st1 => FileSource.addMatches env fs st1 rest

/-- What the `select` of the discovery loop in `Start` can receive, apart
from cancellation: a tick of the glob ticker, or a path on `fileCreated`. -/
inductive Event where
  | globTick
  | fileCreated (path : String)
  deriving DecidableEq, Repr

/-- One round of the discovery loop in `Start`. -/
def FileSource.handleEvent (env : Env) (fs : FileSystem) (st : State) : Event → Option State
  | .globTick =>
    FileSource.addMatches env fs st (globMatches env fs st.source.Include st.source.Exclude)
  | .fileCreated path => FileSource.tryAddFile env fs st path false

/-- Embeds `f.Start()` up to the first `select`: both tracking collections are
emptied and the globs are resolved once. -/
def FileSource.Start (env : Env) (fs : FileSystem) (f : FileSource) : Option State :=
  let st : State :=
    { source := { f with fileWatchers := [], directoryWatchers := [] }, closed := [], allocated := 0 }
  FileSource.addMatches env fs st (globMatches env fs st.source.Include st.source.Exclude)

end Fileinput

/-! ## Removal of a watcher, and runs of the two list operations -/

namespace Fileinput

/-- The `range` loop of `removeFileWatcher`, from index `i` on with
`remaining` iterations left (the loop runs over the length the slice had
when it started).  `arr` is the backing array, `len` the current length of
`f.fileWatchers`, `closed` the addresses closed so far.  A `*FileWatcher` is
the record with its address, so `==` on two of them is equality of the
records.  The statement
`f.fileWatchers = append(f.fileWatchers[:i], f.fileWatchers[i+1:]...)`
panics (`none`) when `i+1` exceeds the current length; otherwise it moves
the elements `i+1 .. len-1` one place down in the backing array and shortens
the slice by one. -/
def removeLoop (watcher : FileWatcher) :
    Nat → Nat → List FileWatcher → Nat → List Nat → Option (List FileWatcher × Nat × List Nat)
  | 0, _, arr, len, closed => some (arr, len, closed)
  | remaining + 1, i, arr, len, closed =>
    match arr.get? i with
    | none => none
    | some trackedWatcher =>
      if trackedWatcher = watcher then
        if len < i + 1 then none
        else
          removeLoop watcher remaining (i + 1)
            (arr.take i ++ (arr.drop (i + 1)).take (len - (i + 1)) ++ arr.drop (len - 1))
            (len - 1) (closed ++ [trackedWatcher.addr])
      else removeLoop watcher remaining (i + 1) arr len closed

/-- Embeds `f.removeFileWatcher(watcher)`; `none` is a panic of the slice
expression. -/
def FileSource.removeFileWatcher (st : State) (watcher : FileWatcher) : Option State :=
  match removeLoop watcher st.source.fileWatchers.length 0 st.source.fileWatchers
      st.source.fileWatchers.length [] with
  | none => none
  | some (arr, len, closed) =>
    some { st with source := { st.source with fileWatchers := arr.take len },
                   closed := st.closed ++ closed }

/-- A call of one of the two operations on the tracked list. -/
inductive ListOp where
  | overwrite (watcher : FileWatcher)
  | remove (watcher : FileWatcher)
  deriving DecidableEq, Repr

/-- A sequence of `overwriteFileWatcher` and `removeFileWatcher` calls;
`none` when one of them panics. -/
def FileSource.applyOps : State → List ListOp → Option State
  | st, [] => some st
  | st, .overwrite watcher :: rest =>
    FileSource.applyOps (FileSource.overwriteFileWatcher st watcher) rest
  | st, .remove watcher :: rest =>
    match FileSource.removeFileWatcher st watcher with
    | none => none
    | some st1 => FileSource.applyOps st1 rest

/-- The invariant of the tracked list: no two entries have the same path. -/
def distinctPaths (watchers : List FileWatcher) : Prop :=
  (watchers.map (fun w => w.path)).Nodup

instance (watchers : List FileWatcher) : Decidable (distinctPaths watchers) := by
  unfold distinctPaths; infer_instance

end Fileinput

/-! ## Decoding (`operator/helper/decoder.go`) -/

namespace Helper

/-- Errors of `Transform`: `transform.ErrShortDst`, or any other error with
its message. -/
inductive TransformError where
  | ErrShortDst
  | other (msg : String)
  deriving DecidableEq, Repr

/-- What `Transform(dst, src, true)` leaves behind: the bytes `dst[:nDst]`
and the error. -/
structure Transformed where
  written : List UInt8
  err : Option TransformError
  deriving DecidableEq, Repr

/-- The transformers of the encodings other than the no-op one, which
belong to `golang.org/x/text`: `transform e dstLen src` is the result of
`Reset()` followed by `Transform(dst, src, true)` on the decoder of `e` with
a destination of `dstLen` bytes. -/
structure Charsets where
  transform : Encoding → Nat → List UInt8 → Transformed

/-- The transformer `transform.Nop` behind `encoding.Nop.NewDecoder()`:
`n := copy(dst, src)`, and `ErrShortDst` when `n < len(src)`. -/
def nopTransform (dstLen : Nat) (src : List UInt8) : Transformed :=
  { written := src.take dstLen
    err := if min dstLen src.length < src.length then some .ErrShortDst else none }

/-- The call `d.decoder.Reset()` and `d.decoder.Transform(dst, src, true)`
for the decoder made by `NewDecoder()` of the encoding `e`. -/
def decoderTransform (charsets : Charsets) (e : Encoding) (dstLen : Nat) (src : List UInt8) :
    Transformed :=
  match e with
  | .Nop => nopTransform dstLen src
  | e => charsets.transform e dstLen src

/-- Embeds `d.Copy()`. -/
def Decoder.Copy (d : Decoder) : Decoder :=
  { Encoding := d.Encoding, decoder := d.Encoding, decodeBuffer := 2 ^ 12 }

/-- Embeds `d.Decode(msgBuf)` with at most `fuel` rounds of its loop: the decoder
afterwards (its buffer may have grown) and the returned string, as bytes, or
error.  `none` when the rounds do not suffice. -/
def Decoder.Decode (charsets : Charsets) :
    Nat → Decoder → List UInt8 → Option (Decoder × Except String (List UInt8))
  | 0, _, _ => none
  | fuel + 1, d, msgBuf =>
    match decoderTransform charsets d.decoder d.decodeBuffer msgBuf with
    | { written := _, err := some .ErrShortDst } =>
      Decoder.Decode charsets fuel { d with decodeBuffer := d.decodeBuffer * 2 } msgBuf
    | { written := _, err := some (.other msg) } =>
      some (d, .error ("transform encoding: " ++ msg))
    | { written := written, err := none } => some (d, .ok written)

end Helper

/-! ## Line mode (`bufio.ScanLines`) and the TCP input -/

/-- The function `dropCR` of package `bufio`: one trailing carriage return
is dropped. -/
def dropCR (data : List UInt8) : List UInt8 :=
  if data.getLast? = some 13 then data.dropLast else data

/-- The function `bufio.ScanLines(data, atEOF)`: the number of bytes to
advance and the token, `none` for `nil` (the error is always `nil`). -/
def ScanLines (data : List UInt8) (atEOF : Bool) : Nat × Option (List UInt8) :=
  if atEOF && data.length == 0 then (0, none)
  else
    let i := data.indexOf 10
    if i < data.length then (i + 1, some (dropCR (data.take i)))
    else if atEOF then (data.length, some (dropCR data))
    else (0, none)

/-- Errors that end a scan. -/
inductive ScanError where
  | ErrTooLong
  | noProgress
  deriving DecidableEq, Repr

/-- The loop `for scanner.Scan()` of a `bufio.Scanner` with split function
`split` and a buffer of at most `maxTokenSize` bytes, over an input whose
reads deliver `data` and then end: the tokens in order, and the error of the
scanner.  The split function sees what the buffer can hold; without a token
the scanner fails with `ErrTooLong` when the buffer is full, and otherwise
calls the split function once more at the end of the input.  `fuel` bounds
the number of tokens. -/
def scanTokens (split : List UInt8 → Bool → Nat × Option (List UInt8)) (maxTokenSize : Nat) :
    Nat → List UInt8 → List (List UInt8) × Option ScanError
  | 0, _ => ([], some .noProgress)
  | fuel + 1, data =>
    match split (data.take maxTokenSize) false with
    | (advance, some token) =>
      let (tokens, err) := scanTokens split maxTokenSize fuel (data.drop advance)
      (token :: tokens, err)
    | (_, none) =>
      if maxTokenSize ≤ data.length then ([], some .ErrTooLong)
      else
        match split data true with
        | (advance, some token) =>
          let (tokens, err) := scanTokens split maxTokenSize fuel (data.drop advance)
          (token :: tokens, err)
        | (_, none) => ([], none)

/-- The tokens of a scanner with the split function `bufio.ScanLines`: one
round per byte of input suffices, and one more to see its end. -/
def scanLines (maxTokenSize : Nat) (data : List UInt8) : List (List UInt8) × Option ScanError :=
  scanTokens ScanLines maxTokenSize (data.length + 1) data

/-- The constant `bufio.MaxScanTokenSize`, the buffer limit of
`bufio.NewScanner`. -/
def MaxScanTokenSize : Nat := 64 * 1024

namespace Tcp

/-- The TCP `InputOperator`, as far as `goHandleMessages` uses it. -/
structure InputOperator where
  InputOperator : Helper.InputOperator
  decoder : Helper.Decoder
  deriving DecidableEq, Repr

/-- The loop body of `goHandleMessages` over the tokens of the scanner: a
message that fails to decode, or for which `t.NewEntry` fails
(`newEntryFails`, declared in the helper package), is skipped; the others
are written as the record of an entry.  `none` when a `Decode` does not
finish within `fuel` rounds. -/
def handleTokens (charsets : Helper.Charsets) (newEntryFails : List UInt8 → Bool) (fuel : Nat) :
    Helper.Decoder → List (List UInt8) → Option (List (List UInt8))
  | _, [] => some []
  | decoder, msg :: rest =>
    match Helper.Decoder.Decode charsets fuel decoder msg with
    | none => none
    | some (decoder1, .error _) => handleTokens charsets newEntryFails fuel decoder1 rest
    | some (decoder1, .ok decodedMsg) =>
      if newEntryFails decodedMsg then handleTokens charsets newEntryFails fuel decoder1 rest
      else
        match handleTokens charsets newEntryFails fuel decoder1 rest with
        | none => none
        | some records => some (decodedMsg :: records)

/-- Embeds `t.goHandleMessages(ctx, conn, cancel)` for a connection that delivers
the bytes `conn` and is then closed: the records written, in order. -/
def InputOperator.goHandleMessages (charsets : Helper.Charsets)
    (newEntryFails : List UInt8 → Bool) (fuel : Nat) (t : Tcp.InputOperator)
    (conn : List UInt8) : Option (List (List UInt8)) :=
  handleTokens charsets newEntryFails fuel t.decoder.Copy (scanLines MaxScanTokenSize conn).1

end Tcp

/-! ## A small environment for evaluating the definitions -/

namespace Sample

/-- A glob matcher for evaluation: a pattern with an unclosed `[` is
malformed, the pattern `*` matches every name, any other pattern matches
the name equal to it. -/
def filepathMatch (pattern name : String) : Except String Bool :=
  if pattern.data.count '[' ≠ pattern.data.count ']' then .error "syntax error in pattern"
  else .ok (pattern = "*" || pattern = name)

/-- A regular-expression check for evaluation: an expression whose
parentheses do not pair up does not compile. -/
def regexpError (expr : String) : Option String :=
  if expr.data.count '(' = expr.data.count ')' then none else some "missing parenthesis"

/-- The environment used for evaluation. -/
def env : Env :=
  { filepathMatch := filepathMatch
    regexpError := regexpError
    stringsToLower := fun s => String.mk (s.data.map Char.toLower)
    ianaEncoding := fun name => if name = "latin1" then .ok (some (.IANA name)) else .error "unknown"
    md5Sum := fun bytes => bytes
    base64Encode := fun bytes => String.mk (bytes.map (fun b => Char.ofNat b.toNat))
    durationOfSeconds := fun _ => 1000000000
    filepathDir := fun _ => "/var/log"
    helperInputBuild := fun c _ =>
      if c.OperatorID = "" then .error "missing id"
      else .ok { OperatorID := c.OperatorID, OperatorType := c.OperatorType }
    newNewlineSplitFunc := fun encoding => .ok (.Newline encoding)
    defaultPluginBuild := fun c _ => .ok { PluginID := c.PluginID }
    defaultOutputterBuild := fun c _ => .ok { Output := c.Output } }

/-- The build context used for evaluation. -/
def context : BuildContext := { Database := "offsets.db" }

/-- The plugin build context used for evaluation. -/
def pluginContext : PluginBuildContext := { Logger := "logger", Plugins := ["stdout"] }

/-- The default configuration of operator `tail`, with one include glob. -/
def config : File.InputConfig :=
  { File.NewInputConfig "tail" with Include := ["/var/log/app.log"] }

/-- A plugin configuration with one include glob, no exclude glob, no poll
interval and no multiline section. -/
def sourceConfig : Fileinput.FileSourceConfig :=
  { DefaultPluginConfig := { PluginID := "tail" }
    DefaultOutputterConfig := { Output := "stdout" }
    Include := ["/var/log/app.log"]
    Exclude := []
    PollInterval := .finite 0
    Multiline := none }

/-- The sample configuration with an end pattern only. -/
def endConfig : File.InputConfig :=
  { config with Multiline := some { LineStartPattern := "", LineEndPattern := "END$" } }

/-- The sample plugin configuration with both patterns set. -/
def bothSourceConfig : Fileinput.FileSourceConfig :=
  { sourceConfig with
    Multiline := some { LineStartPattern := "^START", LineEndPattern := "END$" } }

/-- The sample plugin configuration with a start pattern only. -/
def startSourceConfig : Fileinput.FileSourceConfig :=
  { sourceConfig with Multiline := some { LineStartPattern := "^START", LineEndPattern := "" } }

/-- The sample configuration with `max_log_size: 0`. -/
def zeroLogSizeConfig : File.InputConfig := { config with MaxLogSize := 0 }

/-- The sample configuration with `poll_interval: 0`. -/
def zeroPollConfig : File.InputConfig := { config with PollInterval := { Duration := 0 } }

/-- The sample configuration with `poll_interval: -1s`. -/
def negativePollConfig : File.InputConfig :=
  { config with PollInterval := { Duration := -1000000000 } }

/-- The sample plugin configuration with `PollInterval: -1`. -/
def negativePollSourceConfig : Fileinput.FileSourceConfig :=
  { sourceConfig with PollInterval := .finite (-1) }

/-- The operator that `InputConfig.Build` returns for a configuration `c`
that differs from `config` in its poll interval or `start_at` only, starting
at the beginning or not. -/
def operatorOf (c : File.InputConfig) (startAtBeginning : Bool) : File.InputOperator :=
  c.newOperator context { OperatorID := "tail", OperatorType := "file_input" }
    { Encoding := .Nop, decoder := .Nop, decodeBuffer := 4096 } (.Newline .Nop) startAtBeginning

/-- The sample configuration with `start_at: beginning`. -/
def beginningConfig : File.InputConfig := { config with StartAt := "beginning" }

/-- The sample configuration with `start_at: Beginning`. -/
def capitalisedStartConfig : File.InputConfig := { config with StartAt := "Beginning" }

/-- The sample configuration with an empty `start_at`. -/
def emptyStartConfig : File.InputConfig := { config with StartAt := "" }

/-- The regular files of the sample file system, with their bytes. -/
def files : List (String × List UInt8) :=
  [ ("/var/log/app.log", [104, 105, 10]),
    ("/var/log/debug.log", [100, 10]),
    ("/var/log/other.txt", [111, 10]) ]

/-- The sample file system: the three regular files and the directory
`/var/log/archive`.  The glob `*` lists everything, any other glob lists the
file of that name. -/
def fs : Fileinput.FileSystem :=
  { glob := fun pattern =>
      if pattern = "*" then files.map Prod.fst ++ ["/var/log/archive"]
      else (files.map Prod.fst).filter (fun path => path = pattern)
    stat := fun path =>
      if path = "/var/log/archive" then some true
      else if (files.lookup path).isSome then some false
      else none
    openFile := fun path =>
      match files.lookup path with
      | some content => .ok { content := content, seekFails := false }
      | none => .error "no such file or directory"
    newDirectoryWatcher := fun _ => none
    watcherFingerprint := fun watcher numBytes =>
      match files.lookup watcher.path with
      | some content =>
        (Fileinput.fingerprint env numBytes { content := content, seekFails := false }).getD ""
      | none => "" }

/-- A started source that includes `/var/log/app.log`, excludes
`/var/log/debug.log` and tracks nothing yet. -/
def started : Fileinput.State :=
  { source :=
      { DefaultPlugin := { PluginID := "tail" }
        DefaultOutputter := { Output := "stdout" }
        Include := ["/var/log/app.log"]
        Exclude := ["/var/log/debug.log"]
        PollInterval := 5000000000
        SplitFunc := some .ScanLines
        FingerprintBytes := 100
        fileWatchers := []
        directoryWatchers := [] }
    closed := []
    allocated := 0 }

/-- The watcher that the sample source creates for `/var/log/app.log`. -/
def appWatcher : Fileinput.FileWatcher :=
  Fileinput.NewFileWatcher 0 "/var/log/app.log" { Output := "stdout" } 0 (some .ScanLines)
    5000000000

/-- The sample source after `Start`: it tracks `/var/log/app.log` and
watches the directory `/var/log`. -/
def tracking : Fileinput.State :=
  { source :=
      { started.source with
        fileWatchers := [appWatcher]
        directoryWatchers := [("/var/log", { path := "/var/log" })] }
    closed := []
    allocated := 1 }

/-- The sample file system after `/var/log/app.log` was renamed to
`/var/log/app.log.1`: the file has the bytes it had, and the watcher that
holds it open has the fingerprint of these bytes. -/
def rotatedFs : Fileinput.FileSystem :=
  { glob := fun pattern => if pattern = "/var/log/app.log.1" then [pattern] else []
    stat := fun path => if path = "/var/log/app.log.1" then some false else none
    openFile := fun path =>
      if path = "/var/log/app.log.1" then .ok { content := [104, 105, 10], seekFails := false }
      else .error "no such file or directory"
    newDirectoryWatcher := fun _ => none
    watcherFingerprint := fun _ numBytes =>
      (Fileinput.fingerprint env numBytes { content := [104, 105, 10], seekFails := false }).getD
        "" }

/-- A file system with two files of the same bytes, `/var/log/a.log` and
`/var/log/b.log`. -/
def twinFs : Fileinput.FileSystem :=
  { glob := fun pattern => [pattern]
    stat := fun _ => some false
    openFile := fun _ => .ok { content := [104, 105, 10], seekFails := false }
    newDirectoryWatcher := fun _ => none
    watcherFingerprint := fun _ numBytes =>
      (Fileinput.fingerprint env numBytes { content := [104, 105, 10], seekFails := false }).getD
        "" }

/-- The fingerprint of the three bytes of `/var/log/app.log` in the sample
environment. -/
def appFingerprint : String :=
  (Fileinput.fingerprint env 100 { content := [104, 105, 10], seekFails := false }).getD ""

/-- A second watcher for `/var/log/app.log`, at another address. -/
def appWatcherAgain : Fileinput.FileWatcher :=
  Fileinput.NewFileWatcher 7 "/var/log/app.log" { Output := "stdout" } 0 (some .ScanLines)
    5000000000

/-- A decoder of UTF-16 for evaluation: little-endian code units below 128
become one byte each, anything else is not handled. -/
def utf16Units : List UInt8 → Option (List UInt8)
  | [] => some []
  | [_] => none
  | lo :: hi :: rest =>
    if hi = 0 ∧ lo < 128 then
      match utf16Units rest with
      | some out => some (lo :: out)
      | none => none
    else none

/-- The transformers used for evaluation: UTF-16 by `utf16Units`, every
other encoding copies its input. -/
def charsets : Helper.Charsets :=
  { transform := fun e dstLen src =>
      match e with
      | .UTF16LittleEndianIgnoreBOM =>
        match utf16Units src with
        | some out =>
          if dstLen < out.length then { written := out.take dstLen, err := some .ErrShortDst }
          else { written := out, err := none }
        | none => { written := [], err := some (.other "code unit not handled") }
      | _ => Helper.nopTransform dstLen src }

/-- The decoder that `DecoderConfig.Build` returns for `utf-16` in the
sample environment. -/
def utf16Decoder : Helper.Decoder :=
  ((Helper.NewDecoderConfig "utf-16").Build env).1

/-- A TCP input with the decoder built for the default encoding `nop`. -/
def tcpInput : Tcp.InputOperator :=
  { InputOperator := { OperatorID := "tcp", OperatorType := "tcp_input" }
    decoder := ((Helper.NewDecoderConfig "nop").Build env).1 }

end Sample

/-! ## Lemmas on the builders -/

section BuilderLemmas

open File Fileinput

theorem regexpCompile_of_valid (env : Env) (expr : String) (h : env.regexpError expr = none) :
    regexpCompile env expr = .ok { expr := expr } := by
  simp [regexpCompile, h]

/-- The builder `FileSourceConfig.Build` returns an error whenever the multiline choice
is one that its `switch` rejects. -/
theorem Fileinput.build_error_of_patterns (env : Env) (c : FileSourceConfig)
    (ctx : PluginBuildContext) (m : FileSourceMultilineConfig) (hm : c.Multiline = some m)
    (h : (m.LineEndPattern ≠ "") ↔ (m.LineStartPattern ≠ "")) :
    ∃ e, c.Build env ctx = .error e := by
  unfold FileSourceConfig.Build
  split
  · exact ⟨_, rfl⟩
  split
  · exact ⟨_, rfl⟩
  split
  · exact ⟨_, rfl⟩
  split
  · exact ⟨_, rfl⟩
  simp only [hm]
  have : decide (m.LineEndPattern ≠ "") = decide (m.LineStartPattern ≠ "") := by
    simp only [decide_eq_decide]; exact h
  simp [this]

theorem Fileinput.buildPlugin_split (env : Env) (c : FileSourceConfig) (dp : DefaultPlugin)
    (dout : DefaultOutputter) (sf : Option SplitFunc) (plugin : FileSource)
    (h : c.buildPlugin env dp dout sf = .ok plugin) : plugin.SplitFunc = sf := by
  unfold FileSourceConfig.buildPlugin at h
  split at h
  · cases h
  · injection h with h; rw [← h]

theorem Fileinput.buildPlugin_ok (env : Env) (c : FileSourceConfig) (dp : DefaultPlugin)
    (dout : DefaultOutputter) (sf : Option SplitFunc) (h : c.PollInterval.ltZero = false) :
    ∃ plugin, c.buildPlugin env dp dout sf = .ok plugin := by
  unfold FileSourceConfig.buildPlugin
  simp [h]

/-- The three ways `FileSourceConfig.Build` gets past the choice of the
split function, each with the function chosen. -/
theorem Fileinput.build_chosen (env : Env) (c : FileSourceConfig) (ctx : PluginBuildContext)
    (sf : Option SplitFunc)
    (h : (c.Multiline = none ∧ sf = some .ScanLines) ∨
      (∃ m, c.Multiline = some m ∧ m.LineStartPattern = "" ∧ m.LineEndPattern ≠ "" ∧
        env.regexpError m.LineEndPattern = none ∧
        sf = some (NewLineEndSplitFunc { expr := m.LineEndPattern })) ∨
      (∃ m, c.Multiline = some m ∧ m.LineEndPattern = "" ∧ m.LineStartPattern ≠ "" ∧
        env.regexpError m.LineStartPattern = none ∧
        sf = some (NewLineStartSplitFunc { expr := m.LineStartPattern }))) :
    (∀ plugin, c.Build env ctx = .ok plugin → plugin.SplitFunc = sf) ∧
    (c.preambleOk env ctx = true → c.PollInterval.ltZero = false →
      ∃ plugin, c.Build env ctx = .ok plugin) := by
  unfold FileSourceConfig.Build FileSourceConfig.preambleOk
  cases env.defaultPluginBuild c.DefaultPluginConfig ctx.Logger with
  | error e => simp
  | ok dp =>
  cases env.defaultOutputterBuild c.DefaultOutputterConfig ctx.Plugins with
  | error e => simp
  | ok dout =>
  cases Fileinput.checkGlobs env .parseIncludeGlob c.Include with
  | error e => simp
  | ok u1 =>
  cases Fileinput.checkGlobs env .parseExcludeGlob c.Exclude with
  | error e => simp
  | ok u2 =>
  rcases h with ⟨hm, hsf⟩ | ⟨m, hm, hs, he, hre, hsf⟩ | ⟨m, hm, he, hs, hre, hsf⟩
  · simp only [hm]
    exact ⟨fun plugin hb => Fileinput.buildPlugin_split env c dp dout sf plugin (hsf ▸ hb),
      fun _ hp => hsf ▸ Fileinput.buildPlugin_ok env c dp dout sf hp⟩
  · simp only [hm, hs, he, regexpCompile_of_valid env _ hre, ne_eq, not_true_eq_false,
      not_false_eq_true, decide_True, decide_False, Bool.true_eq_false, Bool.false_eq_true,
      if_false, if_true]
    exact ⟨fun plugin hb => Fileinput.buildPlugin_split env c dp dout sf plugin (hsf ▸ hb),
      fun _ hp => hsf ▸ Fileinput.buildPlugin_ok env c dp dout sf hp⟩
  · simp only [hm, hs, he, regexpCompile_of_valid env _ hre, ne_eq, not_true_eq_false,
      not_false_eq_true, decide_True, decide_False, Bool.true_eq_false, Bool.false_eq_true,
      if_false, if_true]
    exact ⟨fun plugin hb => Fileinput.buildPlugin_split env c dp dout sf plugin (hsf ▸ hb),
      fun _ hp => hsf ▸ Fileinput.buildPlugin_ok env c dp dout sf hp⟩

/-- Without a multiline section `FileSourceConfig.Build` returns none of the
errors of the multiline `switch`. -/
theorem Fileinput.build_no_multiline_error (env : Env) (c : FileSourceConfig)
    (ctx : PluginBuildContext) (hm : c.Multiline = none) :
    c.Build env ctx ≠ .error .exactlyOnePatternMustBeSet ∧
    (∀ msg, c.Build env ctx ≠ .error (.compileLineEndRegex msg)) ∧
    (∀ msg, c.Build env ctx ≠ .error (.compileLineStartRegex msg)) := by
  have key : ∀ e, c.Build env ctx = .error e →
      (∃ msg, e = .buildDefaultPlugin msg) ∨ (∃ msg, e = .buildDefaultOutputter msg) ∨
      (∃ msg, e = .parseIncludeGlob msg) ∨ (∃ msg, e = .parseExcludeGlob msg) ∨
      e = .pollIntervalNegative := by
    intro e
    unfold FileSourceConfig.Build
    cases env.defaultPluginBuild c.DefaultPluginConfig ctx.Logger with
    | error e1 => intro h; injection h with h; exact Or.inl ⟨e1, h.symm⟩
    | ok dp =>
    cases env.defaultOutputterBuild c.DefaultOutputterConfig ctx.Plugins with
    | error e1 => intro h; injection h with h; exact Or.inr (Or.inl ⟨e1, h.symm⟩)
    | ok dout =>
    have hg : ∀ (wrap : String → Fileinput.BuildError) (l : List String) (e : Fileinput.BuildError),
        Fileinput.checkGlobs env wrap l = .error e → ∃ msg, e = wrap msg := by
      intro wrap l
      induction l with
      | nil => intro e h; cases h
      | cons g rest ih =>
        intro e h
        unfold Fileinput.checkGlobs at h
        split at h
        · injection h with h; exact ⟨_, h.symm⟩
        · exact ih e h
    cases h1 : Fileinput.checkGlobs env .parseIncludeGlob c.Include with
    | error e1 =>
      intro h; injection h with h
      obtain ⟨msg, hmsg⟩ := hg _ _ _ h1
      exact Or.inr (Or.inr (Or.inl ⟨msg, by rw [← h, hmsg]⟩))
    | ok u1 =>
    cases h2 : Fileinput.checkGlobs env .parseExcludeGlob c.Exclude with
    | error e1 =>
      intro h; injection h with h
      obtain ⟨msg, hmsg⟩ := hg _ _ _ h2
      exact Or.inr (Or.inr (Or.inr (Or.inl ⟨msg, by rw [← h, hmsg]⟩)))
    | ok u2 =>
    simp only [hm]
    unfold FileSourceConfig.buildPlugin
    split
    · intro h; injection h with h
      exact Or.inr (Or.inr (Or.inr (Or.inr h.symm)))
    · intro h; cases h
  refine ⟨fun h => ?_, fun msg h => ?_, fun msg h => ?_⟩ <;>
    rcases key _ h with ⟨_, h⟩ | ⟨_, h⟩ | ⟨_, h⟩ | ⟨_, h⟩ | h <;> cases h

theorem Sample.regexpError_flag (expr : String) (h : Sample.env.regexpError expr = none) :
    Sample.env.regexpError ("(?m)" ++ expr) = none := by
  simp only [Sample.env, Sample.regexpError] at h ⊢
  split at h
  · rename_i hc
    have h1 : ("(?m)" ++ expr).data = "(?m)".data ++ expr.data := String.data_append _ _
    rw [h1, List.count_append, List.count_append, hc]
    simp
  · cases h

/-- What a successful `InputConfig.Build` went through. -/
theorem File.build_ok_inv (env : Env) (c : File.InputConfig) (context : BuildContext)
    (op : File.InputOperator) (h : c.Build env context = .ok op) :
    ∃ inputOperator decoder splitFunc startAtBeginning,
      env.helperInputBuild c.InputConfig context = .ok inputOperator ∧
      c.Include ≠ [] ∧ 0 < c.MaxLogSize ∧ 0 < c.MaxConcurrentFiles ∧
      c.DecoderConfig.Build env = (decoder, none) ∧
      c.getSplitFunc env decoder.Encoding = .ok splitFunc ∧
      ((c.StartAt = "beginning" ∧ startAtBeginning = true) ∨
        (c.StartAt = "end" ∧ startAtBeginning = false)) ∧
      op = c.newOperator context inputOperator decoder splitFunc startAtBeginning := by
  unfold InputConfig.Build at h
  split at h
  · cases h
  rename_i inputOperator hio
  split at h
  · cases h
  rename_i hinc
  split at h
  · cases h
  split at h
  · cases h
  split at h
  · cases h
  rename_i hlog
  split at h
  · cases h
  rename_i hfiles
  split at h
  · cases h
  rename_i decoder hdec
  split at h
  · cases h
  rename_i splitFunc hsf
  have hinc2 : c.Include ≠ [] := by
    intro h0; rw [h0] at hinc; exact hinc rfl
  split at h
  · rename_i hb
    injection h with h
    exact ⟨inputOperator, decoder, splitFunc, true, hio, hinc2, by omega, by omega, hdec, hsf,
      Or.inl ⟨hb, rfl⟩, h.symm⟩
  split at h
  · rename_i he
    injection h with h
    exact ⟨inputOperator, decoder, splitFunc, false, hio, hinc2, by omega, by omega, hdec, hsf,
      Or.inr ⟨he, rfl⟩, h.symm⟩
  · cases h

/-- The result of `InputConfig.Build` when every check before the one of
`start_at` passes. -/
theorem File.build_of_valid (env : Env) (c : File.InputConfig) (context : BuildContext)
    (h : c.validApartFromStartAt env context = true) :
    ∃ inputOperator decoder splitFunc,
      c.Build env context =
        if c.StartAt = "beginning" then
          .ok (c.newOperator context inputOperator decoder splitFunc true)
        else if c.StartAt = "end" then
          .ok (c.newOperator context inputOperator decoder splitFunc false)
        else .error (.invalidStartAt c.StartAt) := by
  unfold InputConfig.validApartFromStartAt at h
  unfold InputConfig.Build
  split at h
  · cases h
  rename_i inputOperator hio
  split at h
  · cases h
  rename_i hinc
  split at h
  · cases h
  rename_i hg1
  split at h
  · cases h
  rename_i hg2
  split at h
  · cases h
  rename_i hlog
  split at h
  · cases h
  rename_i hfiles
  split at h
  · cases h
  rename_i decoder hdec
  split at h
  · cases h
  rename_i splitFunc hsf
  refine ⟨inputOperator, decoder, splitFunc, ?_⟩
  simp only [hio, hinc, hg1, hg2, hlog, hfiles, hdec, hsf, if_false]

/-- The decoder of the encoding name `nop`. -/
theorem Helper.build_nop (env : Env) (h : env.stringsToLower "nop" = "nop") :
    (Helper.NewDecoderConfig "nop").Build env
      = ({ Encoding := .Nop, decoder := .Nop, decodeBuffer := 2 ^ 12 }, none) := by
  have hl : Helper.encodingOverrides.lookup "nop" = some Encoding.Nop := by decide
  simp [Helper.DecoderConfig.Build, Helper.NewDecoderConfig, Helper.lookupEncoding, h, hl]

/-- The function `isExcluded` is `true` exactly when `filepath.Match` reports a match
for one of the patterns. -/
theorem Fileinput.isExcluded_iff (env : Env) (path : String) (excludes : List String) :
    isExcluded env path excludes = true ↔
      ∃ pattern ∈ excludes, env.filepathMatch pattern path = .ok true := by
  induction excludes with
  | nil => simp [isExcluded]
  | cons pattern rest ih =>
    unfold isExcluded
    split
    · rename_i h
      simp only [true_iff]
      exact ⟨pattern, List.mem_cons_self _ _, h⟩
    · rename_i h
      rw [ih]
      constructor
      · rintro ⟨q, hq, hmatch⟩
        exact ⟨q, List.mem_cons_of_mem _ hq, hmatch⟩
      · rintro ⟨q, hq, hmatch⟩
        rcases List.mem_cons.mp hq with rfl | hq
        · exact absurd hmatch (h)
        · exact ⟨q, hq, hmatch⟩

/-- The inner loop of `globMatches` adds no excluded path. -/
theorem Fileinput.globMatchesInner_not_excluded (env : Env) (fs : FileSystem)
    (excludes paths : List String) :
    ∀ matched : List String, (∀ p ∈ matched, isExcluded env p excludes = false) →
      ∀ p ∈ globMatchesInner env fs excludes paths matched, isExcluded env p excludes = false := by
  induction paths with
  | nil => intro matched h; simpa [globMatchesInner] using h
  | cons path rest ih =>
    intro matched h
    unfold globMatchesInner
    split
    · exact ih matched h
    · exact ih matched h
    · split
      · exact ih matched h
      · rename_i hex
        apply ih
        intro p hp
        rcases List.mem_append.mp hp with hp | hp
        · exact h p hp
        · simp only [List.mem_singleton] at hp
          subst hp
          simpa using hex

/-- The outer loop of `globMatches` adds no excluded path. -/
theorem Fileinput.globMatchesLoop_not_excluded (env : Env) (fs : FileSystem)
    (excludes includes : List String) :
    ∀ matched : List String, (∀ p ∈ matched, isExcluded env p excludes = false) →
      ∀ p ∈ globMatchesLoop env fs excludes includes matched,
        isExcluded env p excludes = false := by
  induction includes with
  | nil => intro matched h; simpa [globMatchesLoop] using h
  | cons pattern rest ih =>
    intro matched h
    unfold globMatchesLoop
    exact ih _ (Fileinput.globMatchesInner_not_excluded env fs excludes _ matched h)

/-- The buffer after `io.ReadFull` into `n` zero bytes: the first `n` bytes
of the file, then zero bytes up to length `n`. -/
theorem Fileinput.readFull_zeros (content : List UInt8) (n : Nat) :
    readFull content (List.replicate n 0)
      = content.take n ++ List.replicate (n - content.length) 0 := by
  simp [readFull]

/-- The function `fingerprint` in terms of the buffer it hashes. -/
theorem Fileinput.fingerprint_eq (env : Env) (numBytes : Int) (file : OsFile) :
    fingerprint env numBytes file
      = (fingerprintBuffer numBytes file).map (fun buffer => env.base64Encode (env.md5Sum buffer)) := by
  unfold fingerprint
  cases fingerprintBuffer numBytes file <;> rfl

end BuilderLemmas

/-! ## The multiline section -/

section Claims

open File Fileinput

/-- C1. With a multiline section, `InputConfig.getSplitFunc` (config.go)
and `FileSourceConfig.Build` (file_source.go) return an error when both
patterns are non-empty and when both are empty; when exactly one is
non-empty and a valid regular expression, `getSplitFunc` returns the
end-pattern or start-pattern split function, and `Build` carries that
function in every plugin it returns and does return one once its other
steps pass.  Without a multiline section `getSplitFunc` is the newline
split function of the encoding, and `Build` raises no multiline error and
selects `bufio.ScanLines`.  `getSplitFunc` compiles the pattern behind the
flag group `(?m)`, which keeps a valid expression valid. -/
theorem multiline_pattern_choice (env : Env)
    (hflag : ∀ expr, env.regexpError expr = none → env.regexpError ("(?m)" ++ expr) = none)
    (c : File.InputConfig) (encoding : Encoding)
    (fc : FileSourceConfig) (ctx : PluginBuildContext) :
    (∀ m, c.Multiline = some m →
      (m.LineStartPattern ≠ "" → m.LineEndPattern ≠ "" →
        c.getSplitFunc env encoding = .error .onlyOnePatternCanBeSet) ∧
      (m.LineStartPattern = "" → m.LineEndPattern = "" →
        c.getSplitFunc env encoding = .error .onePatternMustBeSet) ∧
      (m.LineStartPattern = "" → m.LineEndPattern ≠ "" →
        env.regexpError m.LineEndPattern = none →
        c.getSplitFunc env encoding
          = .ok (NewLineEndSplitFunc { expr := "(?m)" ++ m.LineEndPattern })) ∧
      (m.LineEndPattern = "" → m.LineStartPattern ≠ "" →
        env.regexpError m.LineStartPattern = none →
        c.getSplitFunc env encoding
          = .ok (NewLineStartSplitFunc { expr := "(?m)" ++ m.LineStartPattern }))) ∧
    (c.Multiline = none →
      (∀ f, env.newNewlineSplitFunc encoding = .ok f → c.getSplitFunc env encoding = .ok f) ∧
      (∀ err, env.newNewlineSplitFunc encoding = .error err →
        c.getSplitFunc env encoding = .error (.newlineSplitFunc err))) ∧
    (∀ m, fc.Multiline = some m →
      (m.LineStartPattern ≠ "" → m.LineEndPattern ≠ "" → ∃ e, fc.Build env ctx = .error e) ∧
      (m.LineStartPattern = "" → m.LineEndPattern = "" → ∃ e, fc.Build env ctx = .error e) ∧
      (m.LineStartPattern = "" → m.LineEndPattern ≠ "" →
        env.regexpError m.LineEndPattern = none →
        (∀ plugin, fc.Build env ctx = .ok plugin →
          plugin.SplitFunc = some (NewLineEndSplitFunc { expr := m.LineEndPattern })) ∧
        (fc.preambleOk env ctx = true → fc.PollInterval.ltZero = false →
          ∃ plugin, fc.Build env ctx = .ok plugin)) ∧
      (m.LineEndPattern = "" → m.LineStartPattern ≠ "" →
        env.regexpError m.LineStartPattern = none →
        (∀ plugin, fc.Build env ctx = .ok plugin →
          plugin.SplitFunc = some (NewLineStartSplitFunc { expr := m.LineStartPattern })) ∧
        (fc.preambleOk env ctx = true → fc.PollInterval.ltZero = false →
          ∃ plugin, fc.Build env ctx = .ok plugin))) ∧
    (fc.Multiline = none →
      (fc.Build env ctx ≠ .error .exactlyOnePatternMustBeSet ∧
        (∀ msg, fc.Build env ctx ≠ .error (.compileLineEndRegex msg)) ∧
        (∀ msg, fc.Build env ctx ≠ .error (.compileLineStartRegex msg))) ∧
      (∀ plugin, fc.Build env ctx = .ok plugin → plugin.SplitFunc = some .ScanLines) ∧
      (fc.preambleOk env ctx = true → fc.PollInterval.ltZero = false →
        ∃ plugin, fc.Build env ctx = .ok plugin)) := by
  refine ⟨fun m hm => ⟨?_, ?_, ?_, ?_⟩, fun hm => ⟨?_, ?_⟩, fun m hm => ⟨?_, ?_, ?_, ?_⟩,
    fun hm => ⟨Fileinput.build_no_multiline_error env fc ctx hm, ?_⟩⟩
  · intro hs he
    simp [InputConfig.getSplitFunc, hm, hs, he]
  · intro hs he
    simp [InputConfig.getSplitFunc, hm, hs, he]
  · intro hs he hre
    simp [InputConfig.getSplitFunc, hm, hs, he, regexpCompile_of_valid env _ (hflag _ hre)]
  · intro he hs hre
    simp [InputConfig.getSplitFunc, hm, hs, he, regexpCompile_of_valid env _ (hflag _ hre)]
  · intro f hf
    simp [InputConfig.getSplitFunc, hm, hf]
  · intro err hf
    simp [InputConfig.getSplitFunc, hm, hf]
  · intro hs he
    exact Fileinput.build_error_of_patterns env fc ctx m hm ⟨fun _ => hs, fun _ => he⟩
  · intro hs he
    exact Fileinput.build_error_of_patterns env fc ctx m hm
      ⟨fun h => absurd he h, fun h => absurd hs h⟩
  · intro hs he hre
    exact Fileinput.build_chosen env fc ctx _ (Or.inr (Or.inl ⟨m, hm, hs, he, hre, rfl⟩))
  · intro he hs hre
    exact Fileinput.build_chosen env fc ctx _ (Or.inr (Or.inr ⟨m, hm, he, hs, hre, rfl⟩))
  · exact Fileinput.build_chosen env fc ctx _ (Or.inl ⟨hm, rfl⟩)

/-- C1 at sample inputs: an end pattern alone gives the end-pattern split
function, both patterns give an error, a start pattern alone builds. -/
theorem multiline_pattern_choice_witness :
    Sample.env.regexpError "END$" = none ∧
    Sample.endConfig.getSplitFunc Sample.env .Nop
      = .ok (NewLineEndSplitFunc { expr := "(?m)" ++ "END$" }) ∧
    (∃ e, Sample.bothSourceConfig.Build Sample.env Sample.pluginContext = .error e) := by
  have h := multiline_pattern_choice Sample.env Sample.regexpError_flag Sample.endConfig .Nop
    Sample.bothSourceConfig Sample.pluginContext
  refine ⟨by decide, ?_, ?_⟩
  · exact (h.1 _ rfl).2.2.1 rfl (by decide) (by decide)
  · exact (h.2.2.1 _ rfl).1 (by decide) (by decide)

/-! ## Checks of `InputConfig.Build` -/

/-- C2. A configuration whose include list is empty is rejected by
`InputConfig.Build`, whatever its other options: the result is an error,
either the one of the embedded input configuration or
`required argument include is empty`, and never an operator. -/
theorem build_rejects_empty_include (env : Env) (c : File.InputConfig) (context : BuildContext)
    (h : c.Include = []) :
    (∃ e, c.Build env context = .error e ∧ (e = .includeEmpty ∨ ∃ msg, e = .helperBuild msg)) ∧
    ∀ op, c.Build env context ≠ .ok op := by
  have key : ∃ e, c.Build env context = .error e ∧
      (e = .includeEmpty ∨ ∃ msg, e = .helperBuild msg) := by
    unfold InputConfig.Build
    split
    · exact ⟨_, rfl, Or.inr ⟨_, rfl⟩⟩
    · simp [h]
  refine ⟨key, fun op hop => ?_⟩
  obtain ⟨e, he, _⟩ := key
  rw [he] at hop
  cases hop

/-- C2 at the default configuration, whose include list is empty. -/
theorem build_rejects_empty_include_witness :
    (File.NewInputConfig "tail").Include = [] ∧
    ∃ e, (File.NewInputConfig "tail").Build Sample.env Sample.context = .error e ∧
      (e = .includeEmpty ∨ ∃ msg, e = .helperBuild msg) :=
  ⟨rfl, (build_rejects_empty_include Sample.env (File.NewInputConfig "tail") Sample.context rfl).1⟩

/-- C3. `InputConfig.Build` returns an error when `max_log_size` is zero or
negative and when `max_concurrent_files` is zero or negative; an operator it
returns has `MaxLogSize > 0` and `MaxConcurrentFiles > 0` (the configured
`max_log_size` being an `int64`). -/
theorem build_requires_positive_limits (env : Env) (c : File.InputConfig)
    (context : BuildContext) :
    (c.MaxLogSize ≤ 0 ∨ c.MaxConcurrentFiles ≤ 0 → ∃ e, c.Build env context = .error e) ∧
    (∀ op, c.Build env context = .ok op → isInt64 c.MaxLogSize →
      0 < op.MaxLogSize ∧ 0 < op.MaxConcurrentFiles) := by
  constructor
  · intro h
    cases hb : c.Build env context with
    | error e => exact ⟨e, rfl⟩
    | ok op =>
      obtain ⟨_, _, _, _, _, _, h1, h2, _⟩ := File.build_ok_inv env c context op hb
      omega
  · intro op hb hr
    obtain ⟨io, dec, sf, b, _, _, h1, h2, _, _, _, hop⟩ := File.build_ok_inv env c context op hb
    subst hop
    simp only [InputConfig.newOperator]
    refine ⟨?_, h2⟩
    unfold isInt64 at hr
    unfold intOfInt64
    norm_num at hr ⊢
    omega

theorem Sample.build_config : Sample.config.Build Sample.env Sample.context
    = .ok (Sample.operatorOf Sample.config false) := by
  rfl

/-- C3 at sample inputs: `max_log_size: 0` is rejected, and the operator
built from the defaults has both limits positive. -/
theorem build_requires_positive_limits_witness :
    (∃ e, Sample.zeroLogSizeConfig.Build Sample.env Sample.context = .error e) ∧
    (0 < (Sample.operatorOf Sample.config false).MaxLogSize ∧
      0 < (Sample.operatorOf Sample.config false).MaxConcurrentFiles) :=
  ⟨(build_requires_positive_limits Sample.env Sample.zeroLogSizeConfig Sample.context).1
      (Or.inl (by decide)),
    (build_requires_positive_limits Sample.env Sample.config Sample.context).2 _
      Sample.build_config (by decide)⟩

/-! ## The poll interval -/

/-- C4, as stated, fails: `InputConfig.Build` returns an operator for
`poll_interval: 0` and for `poll_interval: -1s`, whose poll interval is the
configured one, and `FileSourceConfig.Build` returns a plugin for a poll
interval of zero. -/
theorem poll_interval_not_rejected :
    Sample.zeroPollConfig.PollInterval.Raw = 0 ∧
    Sample.zeroPollConfig.Build Sample.env Sample.context
      = .ok (Sample.operatorOf Sample.zeroPollConfig false) ∧
    (Sample.operatorOf Sample.zeroPollConfig false).PollInterval = 0 ∧
    Sample.negativePollConfig.Build Sample.env Sample.context
      = .ok (Sample.operatorOf Sample.negativePollConfig false) ∧
    (Sample.operatorOf Sample.negativePollConfig false).PollInterval = -1000000000 ∧
    Sample.sourceConfig.PollInterval = .finite 0 ∧
    ∃ plugin, Sample.sourceConfig.Build Sample.env Sample.pluginContext = .ok plugin := by
  refine ⟨rfl, rfl, rfl, rfl, rfl, rfl, ?_⟩
  simp [FileSourceConfig.Build, Sample.sourceConfig, Sample.env, Fileinput.checkGlobs,
    Sample.filepathMatch, FileSourceConfig.buildPlugin, Float64.ltZero]

/-- C4, amended.  `FileSourceConfig.Build` returns an error for a negative
poll interval; a plugin it returns was built from a poll interval that is
not negative, and from a poll interval of zero it has the default of five
seconds, which is strictly positive.  An operator returned by
`InputConfig.Build` for a strictly positive `poll_interval` has a strictly
positive poll interval. -/
theorem poll_interval_checks (env : Env) (c : File.InputConfig) (context : BuildContext)
    (fc : FileSourceConfig) (ctx : PluginBuildContext) :
    (fc.PollInterval.ltZero = true → ∃ e, fc.Build env ctx = .error e) ∧
    (∀ plugin, fc.Build env ctx = .ok plugin →
      fc.PollInterval.ltZero = false ∧
      (fc.PollInterval.eqZero = true →
        plugin.PollInterval = 5 * timeSecond ∧ 0 < plugin.PollInterval)) ∧
    (∀ op, c.Build env context = .ok op → 0 < c.PollInterval.Raw → 0 < op.PollInterval) := by
  have hplug : ∀ dp dout sf plugin, fc.buildPlugin env dp dout sf = .ok plugin →
      fc.PollInterval.ltZero = false ∧
      (fc.PollInterval.eqZero = true →
        plugin.PollInterval = 5 * timeSecond ∧ 0 < plugin.PollInterval) := by
    intro dp dout sf plugin h
    unfold FileSourceConfig.buildPlugin at h
    split at h
    · cases h
    · rename_i hlt
      injection h with h
      subst h
      refine ⟨by simpa using hlt, fun hz => ?_⟩
      simp [hz, timeSecond]
  have hbuild : ∀ plugin, fc.Build env ctx = .ok plugin →
      ∃ dp dout sf, fc.buildPlugin env dp dout sf = .ok plugin := by
    intro plugin h
    unfold FileSourceConfig.Build at h
    repeat' first
      | exact ⟨_, _, _, h⟩
      | cases h
      | split at h
      | dsimp only at h
  refine ⟨fun hlt => ?_, fun plugin h => ?_, fun op h hpos => ?_⟩
  · cases hb : fc.Build env ctx with
    | error e => exact ⟨e, rfl⟩
    | ok plugin =>
      obtain ⟨dp, dout, sf, h⟩ := hbuild plugin hb
      have := (hplug dp dout sf plugin h).1
      rw [hlt] at this
      cases this
  · obtain ⟨dp, dout, sf, h⟩ := hbuild plugin h
    exact hplug dp dout sf plugin h
  · obtain ⟨io, dec, sf, b, _, _, _, _, _, _, _, hop⟩ := File.build_ok_inv env c context op h
    subst hop
    simpa [InputConfig.newOperator] using hpos

/-- C4, amended, at sample inputs: a poll interval of minus one second is
rejected by `FileSourceConfig.Build`, and the operator built from the default
200ms has a positive poll interval. -/
theorem poll_interval_checks_witness :
    Sample.negativePollSourceConfig.PollInterval.ltZero = true ∧
    (∃ e, Sample.negativePollSourceConfig.Build Sample.env Sample.pluginContext = .error e) ∧
    0 < (Sample.operatorOf Sample.config false).PollInterval := by
  have h := poll_interval_checks Sample.env Sample.config Sample.context
    Sample.negativePollSourceConfig Sample.pluginContext
  have hlt : Sample.negativePollSourceConfig.PollInterval.ltZero = true := by
    simp [Sample.negativePollSourceConfig, Float64.ltZero]
  exact ⟨hlt, h.1 hlt, h.2.2 _ Sample.build_config (by decide)⟩

/-! ## The starting offset policy -/

/-- C5. For a configuration that passes every other check,
`InputConfig.Build` returns an operator iff `start_at` is exactly
`beginning` or `end`; the operator starts at the beginning iff `start_at` is
`beginning`; every other string is rejected with the error naming it. -/
theorem start_at_values (env : Env) (c : File.InputConfig) (context : BuildContext)
    (hvalid : c.validApartFromStartAt env context = true) :
    ((∃ op, c.Build env context = .ok op) ↔ (c.StartAt = "beginning" ∨ c.StartAt = "end")) ∧
    (∀ op, c.Build env context = .ok op →
      (op.startAtBeginning = true ↔ c.StartAt = "beginning")) ∧
    (c.StartAt ≠ "beginning" → c.StartAt ≠ "end" →
      c.Build env context = .error (.invalidStartAt c.StartAt)) := by
  obtain ⟨io, dec, sf, hb⟩ := File.build_of_valid env c context hvalid
  refine ⟨⟨?_, ?_⟩, ?_, ?_⟩
  · rintro ⟨op, hop⟩
    obtain ⟨_, _, _, _, _, _, _, _, _, _, hs, _⟩ := File.build_ok_inv env c context op hop
    rcases hs with ⟨h, _⟩ | ⟨h, _⟩
    · exact Or.inl h
    · exact Or.inr h
  · rintro (h | h)
    · exact ⟨_, by rw [hb, if_pos h]⟩
    · by_cases h1 : c.StartAt = "beginning"
      · exact ⟨_, by rw [hb, if_pos h1]⟩
      · exact ⟨_, by rw [hb, if_neg h1, if_pos h]⟩
  · intro op hop
    obtain ⟨_, _, _, b, _, _, _, _, _, _, hs, hop2⟩ := File.build_ok_inv env c context op hop
    subst hop2
    simp only [InputConfig.newOperator]
    rcases hs with ⟨h, hb2⟩ | ⟨h, hb2⟩
    · simp [h, hb2]
    · simp [h, hb2]
  · intro h1 h2
    rw [hb, if_neg h1, if_neg h2]

/-- C5 at sample inputs: `end` and `beginning` build, the empty string and
`Beginning` are rejected. -/
theorem start_at_values_witness :
    Sample.config.validApartFromStartAt Sample.env Sample.context = true ∧
    (∃ op, Sample.config.Build Sample.env Sample.context = .ok op) ∧
    (∃ op, Sample.beginningConfig.Build Sample.env Sample.context = .ok op) ∧
    Sample.emptyStartConfig.Build Sample.env Sample.context = .error (.invalidStartAt "") ∧
    Sample.capitalisedStartConfig.Build Sample.env Sample.context
      = .error (.invalidStartAt "Beginning") :=
  ⟨rfl,
    (start_at_values Sample.env Sample.config Sample.context rfl).1.2 (Or.inr rfl),
    (start_at_values Sample.env Sample.beginningConfig Sample.context rfl).1.2 (Or.inl rfl),
    (start_at_values Sample.env Sample.emptyStartConfig Sample.context rfl).2.2
      (by decide) (by decide),
    (start_at_values Sample.env Sample.capitalisedStartConfig Sample.context rfl).2.2
      (by decide) (by decide)⟩

/-! ## The defaults -/

/-- C6. For every operator id `NewInputConfig` returns a configuration with
poll interval 200ms, `start_at` `end`, `max_log_size` 1048576,
`max_concurrent_files` 1024, encoding `nop`, `include_file_name` true and
`include_file_path` false.  Given that the embedded input configuration
builds, that `strings.ToLower` leaves `nop` as it is and that the newline
split function of the no-op encoding exists, the only check of
`InputConfig.Build` these defaults fail is the one of the include list:
`Build` returns the error of the empty include list, and returns an operator
once `include` holds a non-empty list of parseable globs. -/
theorem default_config (env : Env) (context : BuildContext) (operatorID : String) :
    (File.NewInputConfig operatorID).PollInterval.Raw = 200 * timeMillisecond ∧
    200 * timeMillisecond = (200000000 : Int) ∧
    (File.NewInputConfig operatorID).StartAt = "end" ∧
    (File.NewInputConfig operatorID).MaxLogSize = 1048576 ∧
    (File.NewInputConfig operatorID).MaxConcurrentFiles = 1024 ∧
    (File.NewInputConfig operatorID).DecoderConfig.Encoding = "nop" ∧
    (File.NewInputConfig operatorID).IncludeFileName = true ∧
    (File.NewInputConfig operatorID).IncludeFilePath = false ∧
    (∀ inputOperator f,
      env.helperInputBuild (File.NewInputConfig operatorID).InputConfig context
        = .ok inputOperator →
      env.stringsToLower "nop" = "nop" →
      env.newNewlineSplitFunc .Nop = .ok f →
      (File.NewInputConfig operatorID).Build env context = .error .includeEmpty ∧
      ∀ globs, globs ≠ [] →
        File.checkGlobs env .parseIncludeGlob globs = .ok () →
        ∃ op, ({ File.NewInputConfig operatorID with Include := globs }).Build env context
          = .ok op) := by
  refine ⟨rfl, rfl, rfl, rfl, rfl, rfl, rfl, rfl, ?_⟩
  intro inputOperator f hio hlower hsplit
  have hio2 : env.helperInputBuild (Helper.NewInputConfig operatorID "file_input") context
      = .ok inputOperator := hio
  constructor
  · simp [InputConfig.Build, File.NewInputConfig, hio2]
  · intro globs hne hglobs
    have hlen : ¬ globs.length = 0 := by
      intro h0; exact hne (List.length_eq_zero.mp h0)
    have hdec := Helper.build_nop env hlower
    have h1 : ¬ File.defaultMaxLogSize ≤ 0 := by decide
    have h2 : ¬ File.defaultMaxConcurrentFiles ≤ 0 := by decide
    have hend : ¬ ("end" = "beginning") := by decide
    simp [InputConfig.Build, File.NewInputConfig, hio2, hlen, hglobs, File.checkGlobs, h1, h2,
      hdec, InputConfig.getSplitFunc, hsplit, hend]

/-- C6 at the operator id `tail`: the defaults are rejected for the empty
include list only, and build once a glob is included. -/
theorem default_config_witness :
    (File.NewInputConfig "tail").Build Sample.env Sample.context = .error .includeEmpty ∧
    ∃ op, ({ File.NewInputConfig "tail" with Include := ["/var/log/app.log"] }).Build
      Sample.env Sample.context = .ok op := by
  have h := (default_config Sample.env Sample.context "tail").2.2.2.2.2.2.2.2
    { OperatorID := "tail", OperatorType := "file_input" } (.Newline .Nop) rfl (by decide) rfl
  exact ⟨h.1, h.2 ["/var/log/app.log"] (by decide) rfl⟩

/-! ## Exclusion -/

/-- C7. `isExcluded(path, excludes)` is true iff `filepath.Match` reports a
match of the path for at least one exclude pattern; `globMatches` returns no
path that an exclude pattern matches; and for such a path `tryAddFile`
returns with the state as it was (no watcher created, tracked list
unchanged), for a path from a glob scan and for one from a directory
notification alike. -/
theorem excluded_paths_never_watched (env : Env) (fs : FileSystem) (path : String)
    (excludes : List String) :
    (isExcluded env path excludes = true ↔
      ∃ pattern ∈ excludes, env.filepathMatch pattern path = .ok true) ∧
    (∀ includes, path ∈ globMatches env fs includes excludes →
      ∀ pattern ∈ excludes, env.filepathMatch pattern path ≠ .ok true) ∧
    (∀ st : State, (∃ pattern ∈ st.source.Exclude, env.filepathMatch pattern path = .ok true) →
      (∀ globCheck, FileSource.tryAddFile env fs st path globCheck = some st) ∧
      FileSource.handleEvent env fs st (.fileCreated path) = some st) := by
  refine ⟨Fileinput.isExcluded_iff env path excludes, ?_, ?_⟩
  · intro includes hmem pattern hp hmatch
    have h := Fileinput.globMatchesLoop_not_excluded env fs excludes includes [] (by simp)
      path hmem
    have h2 := (Fileinput.isExcluded_iff env path excludes).2 ⟨pattern, hp, hmatch⟩
    rw [h] at h2
    cases h2
  · intro st hex
    have h := (Fileinput.isExcluded_iff env path st.source.Exclude).2 hex
    refine ⟨fun globCheck => ?_, ?_⟩
    · simp [FileSource.tryAddFile, h]
    · simp [FileSource.handleEvent, FileSource.tryAddFile, h]

/-- C7 at the sample source, which excludes `/var/log/debug.log`: the path
is excluded, a notification for it changes nothing, and a scan of `*` does
not list it. -/
theorem excluded_paths_never_watched_witness :
    isExcluded Sample.env "/var/log/debug.log" ["/var/log/debug.log"] = true ∧
    FileSource.handleEvent Sample.env Sample.fs Sample.started
      (.fileCreated "/var/log/debug.log") = some Sample.started ∧
    FileSource.tryAddFile Sample.env Sample.fs Sample.started "/var/log/debug.log" true
      = some Sample.started ∧
    "/var/log/debug.log" ∉ globMatches Sample.env Sample.fs ["*"] ["/var/log/debug.log"] := by
  have h := excluded_paths_never_watched Sample.env Sample.fs "/var/log/debug.log"
    ["/var/log/debug.log"]
  have hm : ∃ pattern ∈ ["/var/log/debug.log"],
      Sample.env.filepathMatch pattern "/var/log/debug.log" = .ok true :=
    ⟨"/var/log/debug.log", by simp, rfl⟩
  refine ⟨h.1.2 hm, (h.2.2 Sample.started hm).2, (h.2.2 Sample.started hm).1 true, ?_⟩
  intro hmem
  exact h.2.1 ["*"] hmem "/var/log/debug.log" (by simp) rfl

/-! ## Paths from directory notifications -/

/-- C8 on the code: the sample source includes only `/var/log/app.log`, and
no include pattern matches `/var/log/other.txt`.  `Start` tracks
`/var/log/app.log` and watches its directory `/var/log`; the round of the
discovery loop that then receives `/var/log/other.txt` from the directory
notification ends with a second watcher, for that path, where a glob tick
leaves `/var/log/app.log` tracked alone. -/
theorem notified_path_skips_include :
    (∀ pattern ∈ Sample.started.source.Include,
      Sample.env.filepathMatch pattern "/var/log/other.txt" = .ok false) ∧
    isExcluded Sample.env "/var/log/other.txt" Sample.started.source.Exclude = false ∧
    ∃ st1 st2 st3,
      FileSource.Start Sample.env Sample.fs Sample.started.source = some st1 ∧
      st1.source.fileWatchers.map (fun w => w.path) = ["/var/log/app.log"] ∧
      st1.source.directoryWatchers.map Prod.fst = ["/var/log"] ∧
      FileSource.handleEvent Sample.env Sample.fs st1 (.fileCreated "/var/log/other.txt")
        = some st2 ∧
      st2.source.fileWatchers.map (fun w => w.path)
        = ["/var/log/app.log", "/var/log/other.txt"] ∧
      FileSource.handleEvent Sample.env Sample.fs st1 .globTick = some st3 ∧
      st3.source.fileWatchers.map (fun w => w.path) = ["/var/log/app.log"] := by
  refine ⟨?_, rfl, _, _, _, rfl, rfl, rfl, rfl, rfl, rfl, rfl⟩
  intro pattern hp
  simp only [Sample.started, List.mem_singleton] at hp
  subst hp
  rfl

/-! ## The fingerprint -/

/-- C9. `fingerprint(N, file)` is a function of the first `N` bytes of the
file: two contents of at least `N` bytes that agree on their first `N` bytes
have equal fingerprints, as have identical contents of any length, and
cutting a content after `N` bytes does not change its fingerprint.  For
`N >= 0` and a file on which `Seek` succeeds the fingerprint is the encoded
digest of the buffer read. -/
theorem fingerprint_of_leading_bytes (env : Env) (numBytes : Int) (seekFails : Bool)
    (a b : List UInt8) :
    (numBytes.toNat ≤ a.length → numBytes.toNat ≤ b.length →
      a.take numBytes.toNat = b.take numBytes.toNat →
      fingerprint env numBytes { content := a, seekFails := seekFails }
        = fingerprint env numBytes { content := b, seekFails := seekFails }) ∧
    (a = b →
      fingerprint env numBytes { content := a, seekFails := seekFails }
        = fingerprint env numBytes { content := b, seekFails := seekFails }) ∧
    fingerprint env numBytes { content := a, seekFails := seekFails }
      = fingerprint env numBytes { content := a.take numBytes.toNat, seekFails := seekFails } ∧
    (0 ≤ numBytes →
      fingerprint env numBytes { content := a, seekFails := false }
        = some (env.base64Encode (env.md5Sum
            (readFull a (List.replicate numBytes.toNat 0))))) := by
  refine ⟨fun ha hb hab => ?_, fun hab => by rw [hab], ?_, fun hN => ?_⟩
  · simp only [Fileinput.fingerprint_eq, fingerprintBuffer, Fileinput.readFull_zeros, hab,
      Nat.sub_eq_zero_of_le ha, Nat.sub_eq_zero_of_le hb]
  · have h1 : (a.take numBytes.toNat).take numBytes.toNat = a.take numBytes.toNat := by
      rw [List.take_take]; simp
    have h2 : numBytes.toNat - (a.take numBytes.toNat).length = numBytes.toNat - a.length := by
      rw [List.length_take]; omega
    simp only [Fileinput.fingerprint_eq, fingerprintBuffer, Fileinput.readFull_zeros, h1, h2]
  · have : ¬ numBytes < 0 := by omega
    simp [fingerprint, fingerprintBuffer, this]

/-- C9 at `N = 2`: `hi` followed by a line feed and `hi` followed by `!`
have the same fingerprint. -/
theorem fingerprint_of_leading_bytes_witness :
    fingerprint Sample.env 2 { content := [104, 105, 10], seekFails := false }
      = fingerprint Sample.env 2 { content := [104, 105, 33], seekFails := false } :=
  (fingerprint_of_leading_bytes Sample.env 2 false [104, 105, 10] [104, 105, 33]).1
    (by decide) (by decide) (by decide)

/-- C10, as stated, fails: with `N = 100` the one-byte file `a` is hashed
over a buffer of 100 bytes, `a` followed by 99 zero bytes, not over its one
byte; the two-byte file of `a` and a zero byte is hashed over the same
buffer, so the two files have the same fingerprint whatever the digest. -/
theorem short_file_hashed_with_padding :
    fingerprintBuffer 100 { content := [97], seekFails := false }
      = some (97 :: List.replicate 99 0) ∧
    fingerprintBuffer 100 { content := [97, 0], seekFails := false }
      = some (97 :: List.replicate 99 0) ∧
    ([97] : List UInt8) ≠ [97, 0] ∧
    (97 :: List.replicate 99 0 : List UInt8) ≠ [97] ∧
    (∀ env : Env, fingerprint env 100 { content := [97], seekFails := false }
      = fingerprint env 100 { content := [97, 0], seekFails := false }) := by
  refine ⟨by decide, by decide, by decide, by decide, fun env => ?_⟩
  have h1 : fingerprintBuffer 100 { content := [97], seekFails := false }
      = fingerprintBuffer 100 { content := [97, 0], seekFails := false } := by decide
  rw [Fileinput.fingerprint_eq, Fileinput.fingerprint_eq, h1]

/-- C10, amended.  For a file of `L < N` bytes on which `Seek` succeeds,
`fingerprint(N, file)` is the encoded digest of a buffer of `N` bytes: the
`L` bytes of the file followed by `N - L` zero bytes.  A file that is
shorter than `N` and continues the content with zero bytes only has the same
fingerprint. -/
theorem short_file_fingerprint (env : Env) (numBytes : Int) (content : List UInt8)
    (h : (content.length : Int) < numBytes) :
    fingerprintBuffer numBytes { content := content, seekFails := false }
      = some (content ++ List.replicate (numBytes.toNat - content.length) 0) ∧
    (content ++ List.replicate (numBytes.toNat - content.length) 0).length = numBytes.toNat ∧
    fingerprint env numBytes { content := content, seekFails := false }
      = some (env.base64Encode (env.md5Sum
          (content ++ List.replicate (numBytes.toNat - content.length) 0))) ∧
    (∀ k : Nat, ((content.length + k : Nat) : Int) < numBytes →
      fingerprint env numBytes
          { content := content ++ List.replicate k 0, seekFails := false }
        = fingerprint env numBytes { content := content, seekFails := false }) := by
  have hN : ¬ numBytes < 0 := by omega
  have hlen : content.length ≤ numBytes.toNat := by omega
  have hbuf : ∀ c : List UInt8, c.length ≤ numBytes.toNat →
      fingerprintBuffer numBytes { content := c, seekFails := false }
        = some (c ++ List.replicate (numBytes.toNat - c.length) 0) := by
    intro c hc
    simp [fingerprintBuffer, hN, Fileinput.readFull_zeros, List.take_of_length_le hc]
  refine ⟨hbuf content hlen, ?_, ?_, ?_⟩
  · simp only [List.length_append, List.length_replicate]; omega
  · rw [Fileinput.fingerprint_eq, hbuf content hlen]; rfl
  · intro k hk
    have hc : (content ++ List.replicate k 0).length ≤ numBytes.toNat := by
      simp only [List.length_append, List.length_replicate]; omega
    rw [Fileinput.fingerprint_eq, Fileinput.fingerprint_eq, hbuf _ hc, hbuf content hlen]
    have : content ++ List.replicate k 0
          ++ List.replicate (numBytes.toNat - (content ++ List.replicate k (0 : UInt8)).length) 0
        = content ++ List.replicate (numBytes.toNat - content.length) 0 := by
      rw [List.append_assoc, List.append_replicate_replicate]
      congr 2
      simp only [List.length_append, List.length_replicate]; omega
    rw [this]

/-- C10, amended, at `N = 100` and the one-byte file `a`. -/
theorem short_file_fingerprint_witness :
    fingerprintBuffer 100 { content := [97], seekFails := false }
      = some ([97] ++ List.replicate ((100 : Int).toNat - [(97 : UInt8)].length) 0) ∧
    fingerprint Sample.env 100 { content := [97] ++ List.replicate 1 0, seekFails := false }
      = fingerprint Sample.env 100 { content := [97], seekFails := false } :=
  ⟨(short_file_fingerprint Sample.env 100 [97] (by decide)).1,
    (short_file_fingerprint Sample.env 100 [97] (by decide)).2.2.2 1 (by decide)⟩

/-! ## The tracked list -/

/-- The loop of `removeFileWatcher` changes nothing when the watcher is not
among the entries still to be visited. -/
theorem Fileinput.removeLoop_no_match (w : FileWatcher) :
    ∀ (k i : Nat) (arr : List FileWatcher) (len : Nat) (closed : List Nat),
      i + k = arr.length → w ∉ arr.drop i →
      removeLoop w k i arr len closed = some (arr, len, closed) := by
  intro k
  induction k with
  | zero => intro i arr len closed _ _; rfl
  | succ k ih =>
    intro i arr len closed hlen hmem
    have hi : i < arr.length := by omega
    have hdrop : arr.drop i = arr[i] :: arr.drop (i + 1) := List.drop_eq_getElem_cons hi
    rw [hdrop] at hmem
    simp only [List.mem_cons, not_or] at hmem
    unfold removeLoop
    rw [List.get?_eq_getElem?, List.getElem?_eq_getElem hi]
    simp only
    rw [if_neg (fun h => hmem.1 h.symm)]
    exact ih (i + 1) arr len closed (by omega) hmem.2

theorem Fileinput.get_middle (a : FileWatcher) (rest : List FileWatcher) :
    ∀ done : List FileWatcher, (done ++ a :: rest).get? done.length = some a := by
  intro done
  induction done with
  | nil => rfl
  | cons d ds ih => simpa using ih

theorem Fileinput.drop_past (rest : List FileWatcher) :
    ∀ done : List FileWatcher, (done ++ rest).drop (done.length + 1) = rest.drop 1 := by
  intro done
  induction done with
  | nil => rfl
  | cons d ds _ => simp

theorem Fileinput.drop_middle (a : FileWatcher) (rest : List FileWatcher) :
    ∀ done : List FileWatcher, (done ++ a :: rest).drop (done.length + 1) = rest := by
  intro done
  induction done with
  | nil => rfl
  | cons d ds _ => simp

theorem Fileinput.stale_slot (w : FileWatcher) (post : List FileWatcher) :
    ∀ x ∈ (post ++ (w :: post).drop post.length).drop 1, x ∈ post := by
  intro x hx
  cases post with
  | nil => simp at hx
  | cons p ps =>
    have e : (p :: ps ++ (w :: p :: ps).drop (p :: ps).length).drop 1
        = ps ++ (p :: ps).drop ps.length := by
      simp
    rw [e] at hx
    rcases List.mem_append.mp hx with h | h
    · exact List.mem_cons_of_mem _ h
    · exact List.mem_of_mem_drop h

/-- The loop of `removeFileWatcher` on a list that holds the watcher once:
the entries after it move one place down, the last slot of the backing array
keeps its old content and the length drops by one. -/
theorem Fileinput.removeLoop_once (w : FileWatcher) (post : List FileWatcher)
    (hpost : w ∉ post) :
    ∀ (pre done : List FileWatcher) (closed : List Nat) (k i len : Nat), w ∉ pre →
      k = pre.length + 1 + post.length → i = done.length →
      len = done.length + pre.length + 1 + post.length →
      removeLoop w k i (done ++ pre ++ w :: post) len closed
        = some (done ++ pre ++ post ++ (w :: post).drop post.length,
            len - 1, closed ++ [w.addr]) := by
  intro pre
  induction pre with
  | nil =>
    intro done closed k i len _ hk hi hlen
    simp only [List.length_nil, Nat.zero_add, Nat.add_zero, List.append_nil] at hk hlen ⊢
    have hk2 : k = post.length + 1 := by omega
    subst hk2
    subst hi
    unfold removeLoop
    rw [Fileinput.get_middle]
    simp only [if_true]
    rw [if_neg (by omega)]
    have e1 : (done ++ w :: post).take done.length = done := by simp
    have e2 : ((done ++ w :: post).drop (done.length + 1)).take (len - (done.length + 1))
        = post := by
      rw [Fileinput.drop_middle]
      exact List.take_of_length_le (by omega)
    have e3 : (done ++ w :: post).drop (len - 1) = (w :: post).drop post.length := by
      have : len - 1 = done.length + post.length := by omega
      rw [this, List.drop_append]
    rw [e1, e2, e3]
    apply Fileinput.removeLoop_no_match
    · simp only [List.length_append, List.length_drop, List.length_cons]; omega
    · intro hmem
      apply hpost
      apply Fileinput.stale_slot w post
      have : (done ++ post ++ (w :: post).drop post.length).drop (done.length + 1)
          = (post ++ (w :: post).drop post.length).drop 1 := by
        rw [List.append_assoc, Fileinput.drop_past]
      rw [this] at hmem
      exact hmem
  | cons a pre ih =>
    intro done closed k i len hpre hk hi hlen
    simp only [List.mem_cons, not_or] at hpre
    simp only [List.length_cons] at hk hlen
    have hk2 : k = (pre.length + 1 + post.length) + 1 := by omega
    subst hk2
    subst hi
    have harr : done ++ a :: pre ++ w :: post = done ++ a :: (pre ++ w :: post) := by simp
    unfold removeLoop
    rw [harr, Fileinput.get_middle]
    simp only
    rw [if_neg (fun h => hpre.1 h.symm)]
    have h := ih (done ++ [a]) closed (pre.length + 1 + post.length) (done.length + 1) len
      hpre.2 rfl (by simp) (by simp; omega)
    simpa using h

/-- Removing a watcher that is not tracked changes nothing. -/
theorem Fileinput.remove_of_not_mem (st : State) (w : FileWatcher)
    (h : w ∉ st.source.fileWatchers) : FileSource.removeFileWatcher st w = some st := by
  unfold FileSource.removeFileWatcher
  rw [Fileinput.removeLoop_no_match w _ 0 _ _ [] (by simp) (by simpa using h)]
  simp

/-- Removing a watcher from a list of pairwise distinct watchers erases it
and closes it. -/
theorem Fileinput.remove_of_mem (st : State) (w : FileWatcher)
    (hnd : st.source.fileWatchers.Nodup) (h : w ∈ st.source.fileWatchers) :
    FileSource.removeFileWatcher st w
      = some { st with source := { st.source with fileWatchers := st.source.fileWatchers.erase w },
                       closed := st.closed ++ [w.addr] } := by
  obtain ⟨pre, post, hl⟩ := List.append_of_mem h
  have hnd2 := hnd
  rw [hl] at hnd2
  have hpre : w ∉ pre := by
    intro hmem
    have := (List.nodup_append.mp hnd2).2.2
    exact this hmem (List.mem_cons_self _ _)
  have hpost : w ∉ post := by
    have := (List.nodup_append.mp hnd2).2.1
    exact (List.nodup_cons.mp this).1
  have hloop := Fileinput.removeLoop_once w post hpost pre [] [] (pre.length + 1 + post.length) 0
    (pre.length + 1 + post.length) hpre rfl rfl (by simp)
  have herase : (pre ++ w :: post).erase w = pre ++ post := by
    rw [List.erase_append_right _ hpre, List.erase_cons_head]
  unfold FileSource.removeFileWatcher
  rw [hl]
  simp only [List.length_append, List.length_cons, List.nil_append] at hloop ⊢
  have hlen : pre.length + (post.length + 1) = pre.length + 1 + post.length := by omega
  rw [hlen, hloop, herase]
  have htake : (pre ++ post ++ (w :: post).drop post.length).take
      (pre.length + 1 + post.length - 1) = pre ++ post := by
    have : pre.length + 1 + post.length - 1 = (pre ++ post).length := by
      simp only [List.length_append]; omega
    rw [this, List.take_left]
  simp only [htake, List.nil_append]

/-- The list that the loop of `overwriteFileWatcher` leaves: every entry
with the path of the watcher replaced by the watcher. -/
theorem Fileinput.overwriteLoop_list (w : FileWatcher) (l : List FileWatcher) :
    (overwriteLoop w l).1 = l.map (fun t => if t.path = w.path then w else t) := by
  induction l with
  | nil => rfl
  | cons t rest ih =>
    simp only [overwriteLoop, List.map_cons]
    split <;> simp [← ih]

/-- The flag that the loop of `overwriteFileWatcher` leaves. -/
theorem Fileinput.overwriteLoop_flag (w : FileWatcher) (l : List FileWatcher) :
    (overwriteLoop w l).2.2 = true ↔ ∃ t ∈ l, t.path = w.path := by
  induction l with
  | nil => simp [overwriteLoop]
  | cons t rest ih =>
    simp only [overwriteLoop, List.mem_cons, exists_eq_or_imp]
    split
    · rename_i h; simp [h]
    · rename_i h; simp [h, ih]

/-- The watchers that the loop of `overwriteFileWatcher` closes. -/
theorem Fileinput.overwriteLoop_closed (w : FileWatcher) (l : List FileWatcher) :
    (overwriteLoop w l).2.1 = (l.filter (fun t => t.path = w.path)).map (fun t => t.addr) := by
  induction l with
  | nil => rfl
  | cons t rest ih =>
    simp only [overwriteLoop]
    split
    · rename_i h; simp [h, ← ih]
    · rename_i h; simp [h, ← ih]

/-- The paths of the tracked list after `overwriteFileWatcher`, when it
overwrote: the paths before. -/
theorem Fileinput.overwriteLoop_paths (w : FileWatcher) (l : List FileWatcher) :
    ((overwriteLoop w l).1).map (fun t => t.path) = l.map (fun t => t.path) := by
  rw [Fileinput.overwriteLoop_list, List.map_map]
  apply List.map_congr_left
  intro t _
  simp only [Function.comp]
  split
  · rename_i h; exact h.symm
  · rfl

/-- The state after `overwriteFileWatcher`, in terms of its loop. -/
theorem Fileinput.overwrite_eq (st : State) (w : FileWatcher) :
    FileSource.overwriteFileWatcher st w
      = { st with
          source := { st.source with
            fileWatchers :=
              if (overwriteLoop w st.source.fileWatchers).2.2
              then (overwriteLoop w st.source.fileWatchers).1
              else (overwriteLoop w st.source.fileWatchers).1 ++ [w] },
          closed := st.closed ++ (overwriteLoop w st.source.fileWatchers).2.1 } := by
  unfold FileSource.overwriteFileWatcher
  rcases overwriteLoop w st.source.fileWatchers with ⟨a, b, c⟩
  rfl

/-- On entries with other paths the loop of `overwriteFileWatcher` replaces
nothing and closes nothing. -/
theorem Fileinput.overwrite_other_paths (w : FileWatcher) (l : List FileWatcher)
    (h : ∀ t ∈ l, t.path ≠ w.path) :
    l.map (fun t => if t.path = w.path then w else t) = l ∧
    l.filter (fun t => t.path = w.path) = [] := by
  constructor
  · conv_rhs => rw [← List.map_id l]
    apply List.map_congr_left
    intro t ht
    simp [h t ht]
  · rw [List.filter_eq_nil_iff]
    intro t ht
    simp [h t ht]

/-- With no entry of the watcher's path `overwriteFileWatcher` appends. -/
theorem Fileinput.overwrite_absent (st : State) (w : FileWatcher)
    (h : ∀ t ∈ st.source.fileWatchers, t.path ≠ w.path) :
    (FileSource.overwriteFileWatcher st w).source.fileWatchers = st.source.fileWatchers ++ [w] ∧
    (FileSource.overwriteFileWatcher st w).closed = st.closed := by
  have hflag : (overwriteLoop w st.source.fileWatchers).2.2 = false := by
    cases hf : (overwriteLoop w st.source.fileWatchers).2.2 with
    | false => rfl
    | true =>
      obtain ⟨t, ht, hp⟩ := (Fileinput.overwriteLoop_flag w _).1 hf
      exact absurd hp (h t ht)
  obtain ⟨hmap, hfilter⟩ := Fileinput.overwrite_other_paths w _ h
  rw [Fileinput.overwrite_eq]
  simp [hflag, Fileinput.overwriteLoop_list, Fileinput.overwriteLoop_closed, hmap, hfilter]

/-- With one entry of the watcher's path, and distinct paths,
`overwriteFileWatcher` closes that entry and puts the watcher in its
place. -/
theorem Fileinput.overwrite_present (st : State) (w t : FileWatcher)
    (pre post : List FileWatcher) (hinv : distinctPaths st.source.fileWatchers)
    (hl : st.source.fileWatchers = pre ++ t :: post) (ht : t.path = w.path) :
    (FileSource.overwriteFileWatcher st w).source.fileWatchers = pre ++ w :: post ∧
    (FileSource.overwriteFileWatcher st w).closed = st.closed ++ [t.addr] := by
  unfold distinctPaths at hinv
  rw [hl, List.map_append, List.map_cons] at hinv
  have hpre : ∀ x ∈ pre, x.path ≠ w.path := by
    intro x hx hp
    have := (List.nodup_append.mp hinv).2.2
    exact this (List.mem_map_of_mem (fun w => w.path) hx)
      (by rw [hp, ← ht]; exact List.mem_cons_self _ _)
  have hpost : ∀ x ∈ post, x.path ≠ w.path := by
    intro x hx hp
    have := (List.nodup_cons.mp (List.nodup_append.mp hinv).2.1).1
    apply this
    rw [ht, ← hp]
    exact List.mem_map_of_mem (fun w => w.path) hx
  have hflag : (overwriteLoop w st.source.fileWatchers).2.2 = true :=
    (Fileinput.overwriteLoop_flag w _).2 ⟨t, by rw [hl]; simp, ht⟩
  obtain ⟨hm1, hf1⟩ := Fileinput.overwrite_other_paths w pre hpre
  obtain ⟨hm2, hf2⟩ := Fileinput.overwrite_other_paths w post hpost
  rw [Fileinput.overwrite_eq, hflag]
  simp only [if_true, Fileinput.overwriteLoop_list, Fileinput.overwriteLoop_closed, hl,
    List.map_append, List.map_cons, List.filter_append, List.filter_cons, hm1, hm2, hf1, hf2, ht,
    decide_True, List.nil_append, List.map_nil, and_self]

/-- The invariant survives `overwriteFileWatcher`. -/
theorem Fileinput.overwrite_distinct (st : State) (w : FileWatcher)
    (hinv : distinctPaths st.source.fileWatchers) :
    distinctPaths (FileSource.overwriteFileWatcher st w).source.fileWatchers := by
  rw [Fileinput.overwrite_eq]
  unfold distinctPaths at hinv ⊢
  simp only
  split
  · rw [Fileinput.overwriteLoop_paths]; exact hinv
  · rename_i hflag
    rw [List.map_append, Fileinput.overwriteLoop_paths]
    apply List.Nodup.append hinv (List.nodup_singleton _)
    intro p hp hw
    simp only [List.map_cons, List.map_nil, List.mem_singleton] at hw
    obtain ⟨t, ht, htp⟩ := List.mem_map.mp hp
    exact hflag ((Fileinput.overwriteLoop_flag w _).2 ⟨t, ht, by rw [htp, hw]⟩)

/-- Under the invariant `removeFileWatcher` does not panic and keeps the
invariant. -/
theorem Fileinput.remove_distinct (st : State) (w : FileWatcher)
    (hinv : distinctPaths st.source.fileWatchers) :
    ∃ st1, FileSource.removeFileWatcher st w = some st1 ∧
      distinctPaths st1.source.fileWatchers := by
  by_cases h : w ∈ st.source.fileWatchers
  · refine ⟨_, Fileinput.remove_of_mem st w (List.Nodup.of_map _ hinv) h, ?_⟩
    unfold distinctPaths at hinv ⊢
    exact List.Nodup.sublist ((List.erase_sublist _ _).map _) hinv
  · exact ⟨st, Fileinput.remove_of_not_mem st w h, hinv⟩

/-- C19. The tracked list keeps the invariant that no two entries have the
same path: from the empty list, and from any list with the invariant, every
sequence of `overwriteFileWatcher` and `removeFileWatcher` calls runs
without a panic and ends in a list with the invariant.  Under the invariant
`overwriteFileWatcher(w)` closes the entry with the path of `w` and puts `w`
in its place, the length unchanged, and without such an entry appends `w`,
the length one more; and the loop of `removeFileWatcher` stays in range. -/
theorem tracked_paths_stay_distinct (st : State) (w : FileWatcher) (ops : List ListOp) :
    (st.source.fileWatchers = [] →
      ∃ st1, FileSource.applyOps st ops = some st1 ∧ distinctPaths st1.source.fileWatchers) ∧
    (distinctPaths st.source.fileWatchers →
      ∃ st1, FileSource.applyOps st ops = some st1 ∧ distinctPaths st1.source.fileWatchers) ∧
    (distinctPaths st.source.fileWatchers →
      ∀ pre t post, st.source.fileWatchers = pre ++ t :: post → t.path = w.path →
        (FileSource.overwriteFileWatcher st w).source.fileWatchers = pre ++ w :: post ∧
        (FileSource.overwriteFileWatcher st w).closed = st.closed ++ [t.addr] ∧
        (FileSource.overwriteFileWatcher st w).source.fileWatchers.length
          = st.source.fileWatchers.length) ∧
    ((∀ t ∈ st.source.fileWatchers, t.path ≠ w.path) →
      (FileSource.overwriteFileWatcher st w).source.fileWatchers
        = st.source.fileWatchers ++ [w] ∧
      (FileSource.overwriteFileWatcher st w).closed = st.closed ∧
      (FileSource.overwriteFileWatcher st w).source.fileWatchers.length
        = st.source.fileWatchers.length + 1) ∧
    (distinctPaths st.source.fileWatchers →
      ∃ st1, FileSource.removeFileWatcher st w = some st1 ∧
        distinctPaths st1.source.fileWatchers) := by
  have hseq : ∀ (ops : List ListOp) (st : State), distinctPaths st.source.fileWatchers →
      ∃ st1, FileSource.applyOps st ops = some st1 ∧
        distinctPaths st1.source.fileWatchers := by
    intro ops
    induction ops with
    | nil => intro st h; exact ⟨st, rfl, h⟩
    | cons op rest ih =>
      intro st h
      cases op with
      | overwrite x =>
        simp only [FileSource.applyOps]
        exact ih _ (Fileinput.overwrite_distinct st x h)
      | remove x =>
        obtain ⟨st1, h1, h2⟩ := Fileinput.remove_distinct st x h
        simp only [FileSource.applyOps, h1]
        exact ih _ h2
  refine ⟨fun h0 => hseq ops st (by unfold distinctPaths; rw [h0]; simp), hseq ops st, ?_, ?_,
    Fileinput.remove_distinct st w⟩
  · intro hinv pre t post hl ht
    obtain ⟨h1, h2⟩ := Fileinput.overwrite_present st w t pre post hinv hl ht
    refine ⟨h1, h2, ?_⟩
    rw [h1, hl]; simp
  · intro h
    obtain ⟨h1, h2⟩ := Fileinput.overwrite_absent st w h
    refine ⟨h1, h2, ?_⟩
    rw [h1]; simp

/-- C20. On a tracked list of pairwise distinct watchers
`removeFileWatcher(w)` removes only `w`: when `w` is tracked the list
afterwards is the list without `w`, the other watchers in their order, and
`w` is the one watcher closed; when `w` is not tracked the state is
unchanged.  So after `overwriteFileWatcher` has put a watcher of the same
path in the place of `w`, removing `w` leaves that watcher tracked and
unclosed. -/
theorem remove_only_the_watcher (st : State) (w : FileWatcher)
    (hnd : st.source.fileWatchers.Nodup) :
    (w ∈ st.source.fileWatchers →
      ∃ st1, FileSource.removeFileWatcher st w = some st1 ∧
        st1.source.fileWatchers = st.source.fileWatchers.erase w ∧
        st1.source.fileWatchers = st.source.fileWatchers.filter (fun t => t ≠ w) ∧
        st1.closed = st.closed ++ [w.addr]) ∧
    (w ∉ st.source.fileWatchers → FileSource.removeFileWatcher st w = some st) ∧
    (∀ w1 : FileWatcher, distinctPaths st.source.fileWatchers → w ∈ st.source.fileWatchers →
      w1.path = w.path → w1 ≠ w →
      w1 ∈ (FileSource.overwriteFileWatcher st w1).source.fileWatchers ∧
      FileSource.removeFileWatcher (FileSource.overwriteFileWatcher st w1) w
        = some (FileSource.overwriteFileWatcher st w1)) := by
  refine ⟨fun h => ?_, Fileinput.remove_of_not_mem st w, ?_⟩
  · refine ⟨_, Fileinput.remove_of_mem st w hnd h, rfl, ?_, rfl⟩
    simp only
    rw [List.Nodup.erase_eq_filter hnd]
    congr 1
    funext t
    cases ht : decide (t = w) <;> simp_all [bne]
  · intro w1 hinv h hp hne
    obtain ⟨pre, post, hl⟩ := List.append_of_mem h
    obtain ⟨h1, _⟩ := Fileinput.overwrite_present st w1 w pre post hinv hl hp.symm
    have hnd2 := hnd
    rw [hl] at hnd2
    have hpre : w ∉ pre := by
      intro hmem
      exact (List.nodup_append.mp hnd2).2.2 hmem (List.mem_cons_self _ _)
    have hpost : w ∉ post := (List.nodup_cons.mp (List.nodup_append.mp hnd2).2.1).1
    refine ⟨by rw [h1]; simp, ?_⟩
    apply Fileinput.remove_of_not_mem
    rw [h1]
    simp only [List.mem_append, List.mem_cons, not_or]
    exact ⟨hpre, fun e => hne e.symm, hpost⟩

/-! ## Reconciliation of a candidate path -/

/-- The loop of `checkPath` reports nothing to create once a tracked watcher
has the fingerprint and the path of the candidate. -/
theorem Fileinput.checkPathLoop_found (fs : FileSystem) (n : Int) (fp path : String) :
    ∀ ws : List FileWatcher,
      (∃ t ∈ ws, fs.watcherFingerprint t n = fp ∧ t.path = path) →
      checkPathLoop fs n fp path ws = (false, 0, none) := by
  intro ws
  induction ws with
  | nil => rintro ⟨t, ht, _⟩; cases ht
  | cons a rest ih =>
    rintro ⟨t, ht, hfp, hp⟩
    unfold checkPathLoop
    rcases List.mem_cons.mp ht with rfl | hmem
    · simp [hfp, hp]
    · have := ih ⟨t, hmem, hfp, hp⟩
      split
      · split
        · rfl
        · exact this
      · exact this

/-- The loop of `checkPath` asks for a watcher when no tracked watcher has
the path of the candidate. -/
theorem Fileinput.checkPathLoop_untracked (fs : FileSystem) (n : Int) (fp path : String) :
    ∀ ws : List FileWatcher, (∀ t ∈ ws, t.path ≠ path) →
      checkPathLoop fs n fp path ws = (true, 0, none) := by
  intro ws
  induction ws with
  | nil => intro _; rfl
  | cons a rest ih =>
    intro h
    unfold checkPathLoop
    have ha : a.path ≠ path := h a (List.mem_cons_self _ _)
    have hr := ih (fun t ht => h t (List.mem_cons_of_mem _ ht))
    simp [ha, hr]

/-- The loop of `checkPath` returns the offset zero and no error. -/
theorem Fileinput.checkPathLoop_offset (fs : FileSystem) (n : Int) (fp path : String) :
    ∀ ws : List FileWatcher,
      checkPathLoop fs n fp path ws = ((checkPathLoop fs n fp path ws).1, 0, none) := by
  intro ws
  induction ws with
  | nil => rfl
  | cons a rest ih =>
    unfold checkPathLoop
    split
    · split
      · rfl
      · exact ih
    · exact ih

/-- The result of `checkPath` for a file that opens and has a
fingerprint. -/
theorem Fileinput.checkPath_of_open (env : Env) (fs : FileSystem) (f : FileSource)
    (path : String) (checkCopy : Bool) (file : OsFile) (fp : String)
    (hopen : fs.openFile path = .ok file)
    (hfp : fingerprint env f.FingerprintBytes file = some fp) :
    FileSource.checkPath env fs f path checkCopy
      = some (checkPathLoop fs f.FingerprintBytes fp path f.fileWatchers) := by
  simp [FileSource.checkPath, hopen, hfp]

/-- What `tryAddDirectory` can change: the directory watchers only. -/
theorem Fileinput.tryAddDirectory_frame (fs : FileSystem) (st : State) (dir : String) :
    ∃ dirs, FileSource.tryAddDirectory fs st dir
      = { st with source := { st.source with directoryWatchers := dirs } } := by
  unfold FileSource.tryAddDirectory
  split
  · exact ⟨st.source.directoryWatchers, rfl⟩
  · split
    · exact ⟨st.source.directoryWatchers, rfl⟩
    · exact ⟨_, rfl⟩

/-- A second `tryAddDirectory` for the same directory changes nothing, in
any state that has the directory watchers the first one left. -/
theorem Fileinput.tryAddDirectory_again (fs : FileSystem) (st st1 : State) (dir : String)
    (h : st1.source.directoryWatchers
      = (FileSource.tryAddDirectory fs st dir).source.directoryWatchers) :
    FileSource.tryAddDirectory fs st1 dir = st1 := by
  unfold FileSource.tryAddDirectory at h ⊢
  split at h
  · rename_i w hw
    rw [h, hw]
  · rename_i hnone
    split at h
    · rename_i e he
      rw [h, hnone]
    · have hl : st1.source.directoryWatchers.lookup dir = some { path := dir } := by
        rw [h]
        simp only [List.lookup_append, hnone]
        simp
      rw [hl]

/-- The watcher handed to `overwriteFileWatcher` is tracked afterwards. -/
theorem Fileinput.overwrite_mem (st : State) (w : FileWatcher) :
    w ∈ (FileSource.overwriteFileWatcher st w).source.fileWatchers := by
  rw [Fileinput.overwrite_eq]
  simp only
  split
  · rename_i hflag
    obtain ⟨t, ht, hp⟩ := (Fileinput.overwriteLoop_flag w _).1 hflag
    rw [Fileinput.overwriteLoop_list]
    exact List.mem_map.mpr ⟨t, ht, by simp [hp]⟩
  · simp

/-- The steps of `tryAddFile` for a path that is not excluded and whose file
opens and has a fingerprint. -/
theorem Fileinput.tryAddFile_of_open (env : Env) (fs : FileSystem) (st : State)
    (path : String) (globCheck : Bool) (file : OsFile) (fp : String)
    (hex : isExcluded env path st.source.Exclude = false)
    (hopen : fs.openFile path = .ok file)
    (hfp : fingerprint env st.source.FingerprintBytes file = some fp) :
    FileSource.tryAddFile env fs st path globCheck
      = some
        (if (checkPathLoop fs st.source.FingerprintBytes fp path st.source.fileWatchers).1
          then FileSource.overwriteFileWatcher
            { FileSource.tryAddDirectory fs st (env.filepathDir path) with
              allocated := st.allocated + 1 }
            (NewFileWatcher st.allocated path st.source.DefaultOutputter 0
              st.source.SplitFunc st.source.PollInterval)
          else FileSource.tryAddDirectory fs st (env.filepathDir path)) := by
  obtain ⟨dirs, hdirs⟩ := Fileinput.tryAddDirectory_frame fs st (env.filepathDir path)
  unfold FileSource.tryAddFile
  rw [hex]
  simp only [Bool.false_eq_true, if_false]
  rw [hdirs]
  have hcp := Fileinput.checkPath_of_open env fs
    { st.source with directoryWatchers := dirs } path (!globCheck) file fp hopen hfp
  simp only at hcp
  simp only [hcp]
  rw [Fileinput.checkPathLoop_offset]
  cases (checkPathLoop fs st.source.FingerprintBytes fp path st.source.fileWatchers).1 <;> simp

/-- C11. Discovery is idempotent.  For a candidate whose file opens and has
a fingerprint: when a tracked watcher has the candidate's path and
fingerprint, `checkPath` returns `createWatcher = false`, offset zero and no
error, and `tryAddFile` returns with the tracked list, the closed watchers
and the allocations as they were; and when `st` is the state a first
`tryAddFile` of the path left, with its watchers of that path having the
fingerprint of the file, a second `tryAddFile` on the same file system
returns `st` itself. -/
theorem discovery_idempotent (env : Env) (fs : FileSystem) (st : State) (path : String)
    (globCheck : Bool) (file : OsFile) (fp : String)
    (hopen : fs.openFile path = .ok file)
    (hfp : fingerprint env st.source.FingerprintBytes file = some fp) :
    ((∃ t ∈ st.source.fileWatchers,
        t.path = path ∧ fs.watcherFingerprint t st.source.FingerprintBytes = fp) →
      (∀ checkCopy,
        FileSource.checkPath env fs st.source path checkCopy = some (false, 0, none)) ∧
      ∃ st1, FileSource.tryAddFile env fs st path globCheck = some st1 ∧
        st1.source.fileWatchers = st.source.fileWatchers ∧ st1.closed = st.closed ∧
        st1.allocated = st.allocated) ∧
    (∀ (st0 : State) (globCheck0 : Bool),
      FileSource.tryAddFile env fs st0 path globCheck0 = some st →
      (∀ t ∈ st.source.fileWatchers, t.path = path →
        fs.watcherFingerprint t st.source.FingerprintBytes = fp) →
      FileSource.tryAddFile env fs st path globCheck = some st) := by
  constructor
  · rintro ⟨t, ht, hp, hf⟩
    have hloop := Fileinput.checkPathLoop_found fs st.source.FingerprintBytes fp path
      st.source.fileWatchers ⟨t, ht, hf, hp⟩
    refine ⟨fun c => ?_, ?_⟩
    · rw [Fileinput.checkPath_of_open env fs st.source path c file fp hopen hfp, hloop]
    · cases hex : isExcluded env path st.source.Exclude with
      | true => exact ⟨st, by simp [FileSource.tryAddFile, hex], rfl, rfl, rfl⟩
      | false =>
        obtain ⟨dirs, hdirs⟩ := Fileinput.tryAddDirectory_frame fs st (env.filepathDir path)
        refine ⟨_, Fileinput.tryAddFile_of_open env fs st path globCheck file fp hex hopen hfp,
          ?_⟩
        rw [hloop, hdirs]
        simp
  · intro st0 g0 hfirst hcoh
    cases hex0 : isExcluded env path st0.source.Exclude with
    | true =>
      have hst : st = st0 := by
        have : FileSource.tryAddFile env fs st0 path g0 = some st0 := by
          simp [FileSource.tryAddFile, hex0]
        rw [this] at hfirst
        exact (Option.some.inj hfirst).symm
      subst hst
      simp [FileSource.tryAddFile, hex0]
    | false =>
      obtain ⟨dirs, hdirs⟩ := Fileinput.tryAddDirectory_frame fs st0 (env.filepathDir path)
      by_cases hN : fingerprint env st0.source.FingerprintBytes file = some fp
      · have h0 := Fileinput.tryAddFile_of_open env fs st0 path g0 file fp hex0 hopen hN
        rw [h0] at hfirst
        have hst := (Option.some.inj hfirst).symm
        cases hc : (checkPathLoop fs st0.source.FingerprintBytes fp path
            st0.source.fileWatchers).1 with
        | false =>
          rw [hc] at hst
          simp only [Bool.false_eq_true, if_false] at hst
          have hagain : FileSource.tryAddDirectory fs st (env.filepathDir path) = st :=
            Fileinput.tryAddDirectory_again fs st0 st _ (by rw [hst])
          have hex : isExcluded env path st.source.Exclude = false := by
            rw [hst, hdirs]; exact hex0
          rw [Fileinput.tryAddFile_of_open env fs st path globCheck file fp hex hopen hfp]
          have hl : (checkPathLoop fs st.source.FingerprintBytes fp path
              st.source.fileWatchers).1 = false := by
            rw [hst, hdirs]; exact hc
          rw [hl, hagain]
          simp
        | true =>
          rw [hc] at hst
          simp only [if_true] at hst
          have hmem : NewFileWatcher st0.allocated path st0.source.DefaultOutputter 0
              st0.source.SplitFunc st0.source.PollInterval ∈ st.source.fileWatchers := by
            rw [hst]; exact Fileinput.overwrite_mem _ _
          have hdirs2 : st.source.directoryWatchers
              = (FileSource.tryAddDirectory fs st0 (env.filepathDir path)).source.directoryWatchers := by
            rw [hst, Fileinput.overwrite_eq]
          have hagain : FileSource.tryAddDirectory fs st (env.filepathDir path) = st :=
            Fileinput.tryAddDirectory_again fs st0 st _ hdirs2
          have hex : isExcluded env path st.source.Exclude = false := by
            rw [hst, Fileinput.overwrite_eq, hdirs]; exact hex0
          rw [Fileinput.tryAddFile_of_open env fs st path globCheck file fp hex hopen hfp]
          have hl := Fileinput.checkPathLoop_found fs st.source.FingerprintBytes fp path
            st.source.fileWatchers ⟨_, hmem, hcoh _ hmem rfl, rfl⟩
          rw [hl, hagain]
          simp
      · exfalso
        apply hN
        have hst : st.source.FingerprintBytes = st0.source.FingerprintBytes := by
          unfold FileSource.tryAddFile at hfirst
          rw [hex0] at hfirst
          simp only [Bool.false_eq_true, if_false] at hfirst
          rw [hdirs] at hfirst
          split at hfirst
          · cases hfirst
          · split at hfirst
            · rw [← Option.some.inj hfirst]
            · rw [← Option.some.inj hfirst, Fileinput.overwrite_eq]
        rw [← hst]
        exact hfp

/-- C11 at the sample source: the first `tryAddFile` of `/var/log/app.log`
leaves the tracking state, a second one returns that state again, and
`checkPath` then asks for no watcher. -/
theorem discovery_idempotent_witness :
    FileSource.tryAddFile Sample.env Sample.fs Sample.started "/var/log/app.log" true
      = some Sample.tracking ∧
    FileSource.tryAddFile Sample.env Sample.fs Sample.tracking "/var/log/app.log" true
      = some Sample.tracking ∧
    FileSource.checkPath Sample.env Sample.fs Sample.tracking.source "/var/log/app.log" false
      = some (false, 0, none) := by
  have h := discovery_idempotent Sample.env Sample.fs Sample.tracking "/var/log/app.log" true
    { content := [104, 105, 10], seekFails := false } Sample.appFingerprint rfl rfl
  refine ⟨rfl, h.2 Sample.started true rfl ?_,
    (h.1 ⟨Sample.appWatcher, List.mem_singleton.mpr rfl, rfl, rfl⟩).1 false⟩
  intro t ht _
  have : t = Sample.appWatcher := List.mem_singleton.mp ht
  subst this
  rfl

/-- Every result of `checkPath` carries the offset zero. -/
theorem Fileinput.checkPath_offset (env : Env) (fs : FileSystem) (f : FileSource)
    (path : String) (checkCopy : Bool) (r : Bool × Int × Option String)
    (h : FileSource.checkPath env fs f path checkCopy = some r) : r.2.1 = 0 := by
  unfold FileSource.checkPath at h
  split at h
  · rw [← Option.some.inj h]
  · split at h
    · cases h
    · rw [← Option.some.inj h, Fileinput.checkPathLoop_offset]

/-- C12 on the code: the sample source tracks `/var/log/app.log`, and the
file is renamed to `/var/log/app.log.1`.  The tracked watcher has the
fingerprint of the renamed file and another path; `checkPath` asks for a
new watcher with the starting offset zero, as it does for every candidate,
and the round of the discovery loop for the new path ends with both
watchers tracked, the new one starting at offset zero, and nothing
closed. -/
theorem rotation_starts_at_zero :
    Sample.rotatedFs.watcherFingerprint Sample.appWatcher 100 = Sample.appFingerprint ∧
    fingerprint Sample.env 100 { content := [104, 105, 10], seekFails := false }
      = some Sample.appFingerprint ∧
    Sample.appWatcher.path ≠ "/var/log/app.log.1" ∧
    FileSource.checkPath Sample.env Sample.rotatedFs Sample.tracking.source
      "/var/log/app.log.1" true = some (true, 0, none) ∧
    (∃ st, FileSource.handleEvent Sample.env Sample.rotatedFs Sample.tracking
        (.fileCreated "/var/log/app.log.1") = some st ∧
      st.source.fileWatchers
        = [Sample.appWatcher,
            NewFileWatcher 1 "/var/log/app.log.1" { Output := "stdout" } 0 (some .ScanLines)
              5000000000] ∧
      st.closed = []) ∧
    (∀ (env : Env) (fs : FileSystem) (f : FileSource) (path : String) (checkCopy : Bool)
      (r : Bool × Int × Option String),
      FileSource.checkPath env fs f path checkCopy = some r → r.2.1 = 0) :=
  ⟨rfl, rfl, by decide, rfl, ⟨_, rfl, rfl, rfl⟩, Fileinput.checkPath_offset⟩

/-- C13. For two distinct untracked paths whose files have the same
fingerprint, `checkPath` asks for a watcher for the first, and again for the
second once the watcher of the first is tracked; the two
`overwriteFileWatcher` calls append the two watchers and close nothing; and
two `tryAddFile` calls, for paths that are not excluded, end with two
watchers of different addresses, one per path, appended to the tracked
list. -/
theorem identical_files_tracked_apart (env : Env) (fs : FileSystem) (st : State)
    (p1 p2 : String) (g1 g2 : Bool) (file1 file2 : OsFile) (fp : String)
    (hne : p1 ≠ p2)
    (hu1 : ∀ t ∈ st.source.fileWatchers, t.path ≠ p1)
    (hu2 : ∀ t ∈ st.source.fileWatchers, t.path ≠ p2)
    (ho1 : fs.openFile p1 = .ok file1) (ho2 : fs.openFile p2 = .ok file2)
    (hf1 : fingerprint env st.source.FingerprintBytes file1 = some fp)
    (hf2 : fingerprint env st.source.FingerprintBytes file2 = some fp) :
    (∀ c, FileSource.checkPath env fs st.source p1 c = some (true, 0, none)) ∧
    (∀ w1 c, w1.path = p1 →
      FileSource.checkPath env fs (FileSource.overwriteFileWatcher st w1).source p2 c
        = some (true, 0, none)) ∧
    (∀ w1 w2, w1.path = p1 → w2.path = p2 →
      (FileSource.overwriteFileWatcher (FileSource.overwriteFileWatcher st w1) w2).source.fileWatchers
        = st.source.fileWatchers ++ [w1, w2] ∧
      (FileSource.overwriteFileWatcher (FileSource.overwriteFileWatcher st w1) w2).closed
        = st.closed) ∧
    (isExcluded env p1 st.source.Exclude = false → isExcluded env p2 st.source.Exclude = false →
      ∃ st1 st2 w1 w2,
        FileSource.tryAddFile env fs st p1 g1 = some st1 ∧
        FileSource.tryAddFile env fs st1 p2 g2 = some st2 ∧
        w1.path = p1 ∧ w2.path = p2 ∧ w1.addr ≠ w2.addr ∧
        st2.source.fileWatchers = st.source.fileWatchers ++ [w1, w2] ∧
        st2.closed = st.closed) := by
  have hstep : ∀ (s : State) (w1 : FileWatcher), w1.path = p1 →
      (∀ t ∈ s.source.fileWatchers, t.path ≠ p1) → (∀ t ∈ s.source.fileWatchers, t.path ≠ p2) →
      (FileSource.overwriteFileWatcher s w1).source.fileWatchers = s.source.fileWatchers ++ [w1] ∧
      (FileSource.overwriteFileWatcher s w1).closed = s.closed ∧
      ∀ t ∈ (FileSource.overwriteFileWatcher s w1).source.fileWatchers, t.path ≠ p2 := by
    intro s w1 hw1 h1 h2
    obtain ⟨ha, hb⟩ := Fileinput.overwrite_absent s w1 (by rw [hw1]; exact h1)
    refine ⟨ha, hb, ?_⟩
    rw [ha]
    intro t ht
    rcases List.mem_append.mp ht with h | h
    · exact h2 t h
    · rw [List.mem_singleton.mp h, hw1]; exact hne
  refine ⟨fun c => ?_, fun w1 c hw1 => ?_, fun w1 w2 hw1 hw2 => ?_, fun hex1 hex2 => ?_⟩
  · rw [Fileinput.checkPath_of_open env fs st.source p1 c file1 fp ho1 hf1,
      Fileinput.checkPathLoop_untracked fs _ fp p1 _ hu1]
  · obtain ⟨_, _, hc⟩ := hstep st w1 hw1 hu1 hu2
    have hN : (FileSource.overwriteFileWatcher st w1).source.FingerprintBytes
        = st.source.FingerprintBytes := by rw [Fileinput.overwrite_eq]
    rw [Fileinput.checkPath_of_open env fs _ p2 c file2 fp ho2 (by rw [hN]; exact hf2),
      Fileinput.checkPathLoop_untracked fs _ fp p2 _ hc]
  · obtain ⟨ha, hb, hc⟩ := hstep st w1 hw1 hu1 hu2
    obtain ⟨ha2, hb2⟩ := Fileinput.overwrite_absent (FileSource.overwriteFileWatcher st w1) w2
      (by rw [hw2]; exact hc)
    rw [ha2, hb2, ha, hb]
    simp
  · obtain ⟨dirs1, hd1⟩ := Fileinput.tryAddDirectory_frame fs st (env.filepathDir p1)
    have e1 := Fileinput.tryAddFile_of_open env fs st p1 g1 file1 fp hex1 ho1 hf1
    rw [Fileinput.checkPathLoop_untracked fs _ fp p1 _ hu1, hd1] at e1
    simp only [if_true] at e1
    obtain ⟨ha, hb, hc⟩ := hstep
      { st with source := { st.source with directoryWatchers := dirs1 },
                allocated := st.allocated + 1 }
      (NewFileWatcher st.allocated p1 st.source.DefaultOutputter 0 st.source.SplitFunc
        st.source.PollInterval) rfl hu1 hu2
    generalize hst1 : FileSource.overwriteFileWatcher
      { st with source := { st.source with directoryWatchers := dirs1 },
                allocated := st.allocated + 1 }
      (NewFileWatcher st.allocated p1 st.source.DefaultOutputter 0 st.source.SplitFunc
        st.source.PollInterval) = st1 at e1 ha hb hc
    have hfields : st1.source.Exclude = st.source.Exclude ∧
        st1.source.FingerprintBytes = st.source.FingerprintBytes ∧
        st1.allocated = st.allocated + 1 := by
      rw [← hst1, Fileinput.overwrite_eq]
      exact ⟨rfl, rfl, rfl⟩
    obtain ⟨dirs2, hd2⟩ := Fileinput.tryAddDirectory_frame fs st1 (env.filepathDir p2)
    have e2 := Fileinput.tryAddFile_of_open env fs st1 p2 g2 file2 fp
      (by rw [hfields.1]; exact hex2) ho2 (by rw [hfields.2.1]; exact hf2)
    rw [Fileinput.checkPathLoop_untracked fs _ fp p2 _ hc, hd2] at e2
    simp only [if_true] at e2
    obtain ⟨ha2, hb2⟩ := Fileinput.overwrite_absent
      { st1 with source := { st1.source with directoryWatchers := dirs2 },
                 allocated := st1.allocated + 1 }
      (NewFileWatcher st1.allocated p2 st1.source.DefaultOutputter 0 st1.source.SplitFunc
        st1.source.PollInterval) hc
    refine ⟨st1, _,
      NewFileWatcher st.allocated p1 st.source.DefaultOutputter 0 st.source.SplitFunc
        st.source.PollInterval,
      NewFileWatcher st1.allocated p2 st1.source.DefaultOutputter 0 st1.source.SplitFunc
        st1.source.PollInterval, e1, e2, rfl, rfl, ?_, ?_, ?_⟩
    · simp only [NewFileWatcher, hfields.2.2]
      omega
    · rw [ha2]
      simp only
      rw [ha]
      simp
    · rw [hb2]
      simp only
      rw [hb]

/-- C13 at two files of the same bytes, `/var/log/a.log` and
`/var/log/b.log`, neither tracked by the sample source. -/
theorem identical_files_tracked_apart_witness :
    ∃ st1 st2 w1 w2,
      FileSource.tryAddFile Sample.env Sample.twinFs Sample.started "/var/log/a.log" true
        = some st1 ∧
      FileSource.tryAddFile Sample.env Sample.twinFs st1 "/var/log/b.log" true = some st2 ∧
      w1.path = "/var/log/a.log" ∧ w2.path = "/var/log/b.log" ∧ w1.addr ≠ w2.addr ∧
      st2.source.fileWatchers = Sample.started.source.fileWatchers ++ [w1, w2] ∧
      st2.closed = Sample.started.closed :=
  (identical_files_tracked_apart Sample.env Sample.twinFs Sample.started "/var/log/a.log"
    "/var/log/b.log" true true { content := [104, 105, 10], seekFails := false }
    { content := [104, 105, 10], seekFails := false } Sample.appFingerprint (by decide)
    (fun t ht => by cases ht) (fun t ht => by cases ht) rfl rfl rfl rfl).2.2.2 rfl rfl

/-- C19 at the sample source: from the empty list a run of three calls ends
with distinct paths, and overwriting the tracked watcher of
`/var/log/app.log` by another one of that path closes it and keeps the
length. -/
theorem tracked_paths_stay_distinct_witness :
    (∃ st1, FileSource.applyOps Sample.started
        [.overwrite Sample.appWatcher, .overwrite Sample.appWatcherAgain,
          .remove Sample.appWatcher] = some st1 ∧
      distinctPaths st1.source.fileWatchers) ∧
    ((FileSource.overwriteFileWatcher Sample.tracking Sample.appWatcherAgain).source.fileWatchers
        = [] ++ Sample.appWatcherAgain :: [] ∧
      (FileSource.overwriteFileWatcher Sample.tracking Sample.appWatcherAgain).closed
        = Sample.tracking.closed ++ [Sample.appWatcher.addr] ∧
      (FileSource.overwriteFileWatcher Sample.tracking Sample.appWatcherAgain).source.fileWatchers.length
        = Sample.tracking.source.fileWatchers.length) ∧
    (∃ st1, FileSource.removeFileWatcher Sample.tracking Sample.appWatcherAgain = some st1 ∧
      distinctPaths st1.source.fileWatchers) :=
  ⟨(tracked_paths_stay_distinct Sample.started Sample.appWatcher
      [.overwrite Sample.appWatcher, .overwrite Sample.appWatcherAgain,
        .remove Sample.appWatcher]).1 rfl,
    (tracked_paths_stay_distinct Sample.tracking Sample.appWatcherAgain []).2.2.1 (by decide)
      [] Sample.appWatcher [] rfl rfl,
    (tracked_paths_stay_distinct Sample.tracking Sample.appWatcherAgain []).2.2.2.2
      (by decide)⟩

/-- C20 at the sample source: removing the tracked watcher empties the list
and closes it; after another watcher of the same path has taken its place,
removing it changes nothing. -/
theorem remove_only_the_watcher_witness :
    (∃ st1, FileSource.removeFileWatcher Sample.tracking Sample.appWatcher = some st1 ∧
      st1.source.fileWatchers = Sample.tracking.source.fileWatchers.erase Sample.appWatcher ∧
      st1.source.fileWatchers
        = Sample.tracking.source.fileWatchers.filter (fun t => t ≠ Sample.appWatcher) ∧
      st1.closed = Sample.tracking.closed ++ [Sample.appWatcher.addr]) ∧
    (Sample.appWatcherAgain
        ∈ (FileSource.overwriteFileWatcher Sample.tracking Sample.appWatcherAgain).source.fileWatchers ∧
      FileSource.removeFileWatcher
          (FileSource.overwriteFileWatcher Sample.tracking Sample.appWatcherAgain)
          Sample.appWatcher
        = some (FileSource.overwriteFileWatcher Sample.tracking Sample.appWatcherAgain)) :=
  ⟨(remove_only_the_watcher Sample.tracking Sample.appWatcher (by decide)).1
      (List.mem_singleton.mpr rfl),
    (remove_only_the_watcher Sample.tracking Sample.appWatcher (by decide)).2.2
      Sample.appWatcherAgain (by decide) (List.mem_singleton.mpr rfl) rfl (by decide)⟩

/-! ## Decoding -/

/-- The transformer of a decoder that `DecoderConfig.Build` returns is the
no-op one, and its buffer has 4096 bytes, whatever the encoding. -/
theorem Helper.build_transformer (env : Env) (c : Helper.DecoderConfig) :
    (c.Build env).1.decoder = .Nop ∧ (c.Build env).1.decodeBuffer = 4096 := by
  unfold Helper.DecoderConfig.Build
  split <;> exact ⟨rfl, rfl⟩

/-- With the no-op transformer and a buffer that is not empty, `Decode`
returns its input within as many rounds as the input has bytes, and one
more. -/
theorem Helper.decode_nop (charsets : Helper.Charsets) (b : List UInt8) :
    ∀ (fuel : Nat) (d : Helper.Decoder), d.decoder = .Nop → 0 < d.decodeBuffer →
      b.length < d.decodeBuffer + fuel → 0 < fuel →
      ∃ d1, Helper.Decoder.Decode charsets fuel d b = some (d1, .ok b) ∧
        d1.Encoding = d.Encoding ∧ d1.decoder = .Nop ∧ d.decodeBuffer ≤ d1.decodeBuffer := by
  intro fuel
  induction fuel with
  | zero => intro d _ _ _ h; omega
  | succ fuel ih =>
    intro d hdec hpos hlen _
    by_cases hfit : b.length ≤ d.decodeBuffer
    · refine ⟨d, ?_, rfl, hdec, Nat.le_refl _⟩
      have hmin : ¬ min d.decodeBuffer b.length < b.length := by
        rw [Nat.min_eq_right hfit]; omega
      simp [Helper.Decoder.Decode, Helper.decoderTransform, hdec, Helper.nopTransform, hmin,
        List.take_of_length_le hfit]
    · have hmin : min d.decodeBuffer b.length < b.length := by
        rw [Nat.min_eq_left (by omega)]; omega
      have hfuel : 0 < fuel := by omega
      obtain ⟨d1, h1, h2, h3, h4⟩ := ih { d with decodeBuffer := d.decodeBuffer * 2 } hdec
        (by simp only; omega) (by simp only; omega) hfuel
      refine ⟨d1, ?_, h2, h3, by simp only at h4; omega⟩
      simp only [Helper.Decoder.Decode, Helper.decoderTransform, hdec, Helper.nopTransform, hmin,
        if_true]
      rw [hdec] at h1
      exact h1

/-- C14 on the code: for the encoding name `utf-16` `DecoderConfig.Build`
returns, without error, a decoder whose `Encoding` is UTF-16 and whose
transformer is still the no-op one (as for every configuration); `Decode`
on it returns the two bytes `0x61 0x00` as they are, whatever the
transformers of the other encodings do, and not the one byte of `a`. -/
theorem built_decoder_does_not_convert :
    (Helper.NewDecoderConfig "utf-16").Build Sample.env
      = ({ Encoding := .UTF16LittleEndianIgnoreBOM, decoder := .Nop, decodeBuffer := 4096 },
          none) ∧
    (∀ charsets : Helper.Charsets,
      Helper.Decoder.Decode charsets 1 Sample.utf16Decoder [0x61, 0x00]
        = some (Sample.utf16Decoder, .ok [0x61, 0x00])) ∧
    ([0x61, 0x00] : List UInt8) ≠ [0x61] ∧
    (∀ (env : Env) (c : Helper.DecoderConfig), (c.Build env).1.decoder = .Nop) :=
  ⟨rfl, fun _ => rfl, by decide, fun env c => (Helper.build_transformer env c).1⟩

/-- C15 on the code: the decoder built for `utf-16` and its copy differ in
their transformers, the copy taking the one of the encoding; with a UTF-16
transformer that turns `0x61 0x00` into `a`, `Decode` on the copy returns
`a` where `Decode` on the original returns the two bytes, so the two calls
do not return the same string. -/
theorem copy_decodes_differently :
    Sample.utf16Decoder.decoder = .Nop ∧
    Sample.utf16Decoder.Copy.decoder = .UTF16LittleEndianIgnoreBOM ∧
    Helper.Decoder.Decode Sample.charsets 1 Sample.utf16Decoder [0x61, 0x00]
      = some (Sample.utf16Decoder, .ok [0x61, 0x00]) ∧
    Helper.Decoder.Decode Sample.charsets 1 Sample.utf16Decoder.Copy [0x61, 0x00]
      = some (Sample.utf16Decoder.Copy, .ok [0x61]) ∧
    (∀ d : Helper.Decoder, d.Copy.decoder = d.Encoding ∧ d.Copy.Encoding = d.Encoding ∧
      d.Copy.decodeBuffer = 4096) :=
  ⟨rfl, rfl, rfl, rfl, fun _ => ⟨rfl, rfl, rfl⟩⟩

/-- C16. `Decode` on a decoder returned by `DecoderConfig.Build` ends
within as many rounds as the input has bytes, and one more, without error,
and returns exactly the bytes of its input, of any length and valid UTF-8 or
not.  For the encoding names `""` and `nop` (which `strings.ToLower` leaves
as they are) `Build` returns no error and the no-op encoding, and `Decode`
on a copy of the decoder is the identity as well; for `utf8` `Build` returns
no error and the UTF-8 encoding, and `Decode` on the decoder returns its
input unchanged. -/
theorem nop_decode_is_identity (charsets : Helper.Charsets) (env : Env)
    (c : Helper.DecoderConfig) (b : List UInt8) (fuel : Nat) (hfuel : b.length < fuel) :
    (∃ d1, Helper.Decoder.Decode charsets fuel (c.Build env).1 b = some (d1, .ok b)) ∧
    ((c.Encoding = "" ∨ c.Encoding = "nop") → env.stringsToLower c.Encoding = c.Encoding →
      (c.Build env).2 = none ∧ (c.Build env).1.Encoding = .Nop ∧
      ∃ d1, Helper.Decoder.Decode charsets fuel (c.Build env).1.Copy b = some (d1, .ok b)) ∧
    (c.Encoding = "utf8" → env.stringsToLower c.Encoding = c.Encoding →
      (c.Build env).2 = none ∧ (c.Build env).1.Encoding = .UTF8 ∧
      ∃ d1, Helper.Decoder.Decode charsets fuel (c.Build env).1 b = some (d1, .ok b)) := by
  have hbuilt : ∃ d1, Helper.Decoder.Decode charsets fuel (c.Build env).1 b
      = some (d1, .ok b) := by
    obtain ⟨h1, h2⟩ := Helper.build_transformer env c
    obtain ⟨d1, hd, _⟩ := Helper.decode_nop charsets b fuel (c.Build env).1 h1
      (by rw [h2]; omega) (by omega) (by omega)
    exact ⟨d1, hd⟩
  have hlookup : ∀ (name : String) (e : Encoding), c.Encoding = name →
      Helper.encodingOverrides.lookup name = some e → env.stringsToLower c.Encoding = c.Encoding →
      (c.Build env).2 = none ∧ (c.Build env).1.Encoding = e := by
    intro name e hn hl hlow
    rw [hn] at hlow
    simp [Helper.DecoderConfig.Build, Helper.lookupEncoding, hlow, hn, hl]
  refine ⟨hbuilt, fun hname hlow => ?_, fun hname hlow => ?_⟩
  · have hb : (c.Build env).2 = none ∧ (c.Build env).1.Encoding = .Nop := by
      rcases hname with h | h
      · exact hlookup "" .Nop h (by decide) hlow
      · exact hlookup "nop" .Nop h (by decide) hlow
    refine ⟨hb.1, hb.2, ?_⟩
    obtain ⟨d1, hd, _⟩ := Helper.decode_nop charsets b fuel (c.Build env).1.Copy
      (by simp only [Helper.Decoder.Copy]; exact hb.2)
      (by simp [Helper.Decoder.Copy]) (by omega) (by omega)
    exact ⟨d1, hd⟩
  · obtain ⟨h1, h2⟩ := hlookup "utf8" .UTF8 hname (by decide) hlow
    exact ⟨h1, h2, hbuilt⟩

/-- C16 at the single byte `0xC5` with the empty encoding name, at 5000
bytes with `nop`, and at `foo` with `utf8`. -/
theorem nop_decode_is_identity_witness :
    (∃ d1, Helper.Decoder.Decode Sample.charsets 2
        ((Helper.NewDecoderConfig "").Build Sample.env).1 [0xC5] = some (d1, .ok [0xC5])) ∧
    (∃ d1, Helper.Decoder.Decode Sample.charsets 5001
        ((Helper.NewDecoderConfig "nop").Build Sample.env).1.Copy (List.replicate 5000 0)
      = some (d1, .ok (List.replicate 5000 0))) ∧
    (∃ d1, Helper.Decoder.Decode Sample.charsets 4
        ((Helper.NewDecoderConfig "utf8").Build Sample.env).1 [102, 111, 111]
      = some (d1, .ok [102, 111, 111])) :=
  ⟨(nop_decode_is_identity Sample.charsets Sample.env (Helper.NewDecoderConfig "") [0xC5] 2
      (by decide)).1,
    ((nop_decode_is_identity Sample.charsets Sample.env (Helper.NewDecoderConfig "nop")
      (List.replicate 5000 0) 5001 (by rw [List.length_replicate]; omega)).2.1 (Or.inr rfl)
      (by decide)).2.2,
    ((nop_decode_is_identity Sample.charsets Sample.env (Helper.NewDecoderConfig "utf8")
      [102, 111, 111] 4 (by decide)).2.2 rfl (by decide)).2.2⟩

/-! ## Line mode -/

theorem dropCR_append_cr (l : List UInt8) : dropCR (l ++ [13]) = l := by
  simp [dropCR]

theorem dropCR_of_no_cr (l : List UInt8) (h : l.getLast? ≠ some 13) : dropCR l = l := by
  simp [dropCR, h]

theorem dropCR_subset (l : List UInt8) : ∀ x ∈ dropCR l, x ∈ l := by
  unfold dropCR
  split
  · exact fun x hx => List.mem_of_mem_dropLast hx
  · exact fun x hx => hx

theorem dropCR_length_le (l : List UInt8) : (dropCR l).length ≤ l.length := by
  unfold dropCR
  split <;> simp

/-- A list that holds a line feed splits at the first one. -/
theorem first_newline (d : List UInt8) (h : (10 : UInt8) ∈ d) :
    ∃ line rest, d = line ++ 10 :: rest ∧ (10 : UInt8) ∉ line ∧
      d.indexOf 10 = line.length := by
  induction d with
  | nil => cases h
  | cons x xs ih =>
    by_cases hx : x = 10
    · subst hx
      exact ⟨[], xs, rfl, by simp, List.indexOf_cons_self _ _⟩
    · have hmem : (10 : UInt8) ∈ xs := by
        rcases List.mem_cons.mp h with h1 | h1
        · exact absurd h1.symm hx
        · exact h1
      obtain ⟨line, rest, hd, hl, hi⟩ := ih hmem
      refine ⟨x :: line, rest, by rw [hd]; rfl, ?_, ?_⟩
      · simp only [List.mem_cons, not_or]
        exact ⟨fun e => hx e.symm, hl⟩
      · rw [List.indexOf_cons_ne _ hx, hi]
        rfl

/-- A token of `ScanLines` is the start of the data up to the first line
feed, or at the end of the input all of the data, without one trailing
carriage return; the advance steps over the line feed. -/
theorem ScanLines_token (d : List UInt8) (atEOF : Bool) (adv : Nat) (tok : List UInt8)
    (h : ScanLines d atEOF = (adv, some tok)) :
    ∃ line rest, d = line ++ rest ∧ (10 : UInt8) ∉ line ∧ tok = dropCR line ∧
      ((∃ rest1, rest = 10 :: rest1 ∧ adv = line.length + 1) ∨
        (rest = [] ∧ adv = line.length ∧ atEOF = true)) := by
  simp only [ScanLines] at h
  split at h
  · cases h
  · by_cases hi : d.indexOf 10 < d.length
    · rw [if_pos hi] at h
      obtain ⟨line, rest, hd, hl, hidx⟩ := first_newline d (List.indexOf_lt_length.mp hi)
      have h1 := (Prod.mk.inj h).1
      have h2 := Option.some.inj (Prod.mk.inj h).2
      refine ⟨line, 10 :: rest, hd, hl, ?_, Or.inl ⟨rest, rfl, by rw [← h1, hidx]⟩⟩
      rw [← h2, hidx, hd, List.take_left]
    · rw [if_neg hi] at h
      cases hE : atEOF with
      | false => rw [hE] at h; simp at h
      | true =>
        rw [hE] at h
        simp only [if_true] at h
        have h1 := (Prod.mk.inj h).1
        have h2 := Option.some.inj (Prod.mk.inj h).2
        have hnot : (10 : UInt8) ∉ d := by
          intro hm
          exact hi (List.indexOf_lt_length.mpr hm)
        exact ⟨d, [], by simp, hnot, h2.symm, Or.inr ⟨rfl, h1.symm, rfl⟩⟩

/-- A scanner with `ScanLines` finds no token in an empty input. -/
theorem scanTokens_nil (maxTokenSize fuel : Nat) :
    (scanTokens ScanLines maxTokenSize fuel []).1 = [] := by
  have hnil : ∀ atEOF, ScanLines [] atEOF = (0, none) := by
    intro atEOF
    cases atEOF <;> rfl
  cases fuel with
  | zero => rfl
  | succ fuel =>
    simp only [scanTokens, List.take_nil, hnil]
    split <;> rfl

/-- Every token of a scanner with `ScanLines` has no line feed and is one
line of the input, a stretch of bytes without line feed that stands between
line feeds or the ends of the input, without one trailing carriage
return. -/
theorem scanTokens_records (maxTokenSize : Nat) :
    ∀ (fuel : Nat) (data r : List UInt8),
      r ∈ (scanTokens ScanLines maxTokenSize fuel data).1 →
      (10 : UInt8) ∉ r ∧
      ∃ pre line post, data = pre ++ line ++ post ∧ (10 : UInt8) ∉ line ∧
        (pre = [] ∨ pre.getLast? = some 10) ∧ (post = [] ∨ post.head? = some 10) ∧
        r = dropCR line := by
  intro fuel
  induction fuel with
  | zero => intro data r h; simp [scanTokens] at h
  | succ fuel ih =>
    intro data r h
    have step : ∀ (d : List UInt8) (atEOF : Bool) (tail : List UInt8) (adv : Nat)
        (tok : List UInt8), data = d ++ tail → ScanLines d atEOF = (adv, some tok) →
        (atEOF = true → tail = []) →
        r ∈ tok :: (scanTokens ScanLines maxTokenSize fuel (data.drop adv)).1 →
        (10 : UInt8) ∉ r ∧
        ∃ pre line post, data = pre ++ line ++ post ∧ (10 : UInt8) ∉ line ∧
          (pre = [] ∨ pre.getLast? = some 10) ∧ (post = [] ∨ post.head? = some 10) ∧
          r = dropCR line := by
      intro d atEOF tail adv tok hdata hs htail hr
      obtain ⟨line, rest, hd, hl, htok, hcase⟩ := ScanLines_token d atEOF adv tok hs
      rcases List.mem_cons.mp hr with hr1 | hr1
      · subst hr1
        refine ⟨?_, [], line, rest ++ tail, by rw [hdata, hd]; simp, hl, Or.inl rfl, ?_, htok⟩
        · rw [htok]; exact fun hm => hl (dropCR_subset line _ hm)
        · rcases hcase with ⟨rest1, hrest, _⟩ | ⟨hrest, _, hE⟩
          · right; rw [hrest]; rfl
          · left; rw [hrest, htail hE]; rfl
      · rcases hcase with ⟨rest1, hrest, hadv⟩ | ⟨hrest, hadv, hE⟩
        · have hdrop : data.drop adv = rest1 ++ tail := by
            rw [hdata, hd, hrest, hadv]
            simp
          rw [hdrop] at hr1
          obtain ⟨hr10, pre, ln, post, hsplit, hln, hpre, hpost, hrl⟩ := ih _ r hr1
          refine ⟨hr10, line ++ 10 :: pre, ln, post, ?_, hln, Or.inr ?_, hpost, hrl⟩
          · rw [hdata, hd, hrest]
            simp only [List.append_assoc, List.cons_append]
            rw [← List.append_assoc pre, ← hsplit]
          · rcases hpre with hp | hp
            · rw [hp]; simp
            · rw [List.getLast?_append]
              cases pre with
              | nil => simp at hp
              | cons a as =>
                rw [List.getLast?_cons_cons, hp]
                rfl
        · have hdrop : data.drop adv = [] := by
            rw [hdata, hd, hrest, htail hE, hadv]
            simp
          rw [hdrop, scanTokens_nil] at hr1
          cases hr1
    unfold scanTokens at h
    split at h
    · rename_i adv tok hs
      exact step (data.take maxTokenSize) false (data.drop maxTokenSize) adv tok
        (List.take_append_drop _ _).symm hs (by simp) (by simpa using h)
    · split at h
      · simp at h
      · split at h
        · rename_i adv tok hs
          exact step data true [] adv tok (by simp) hs (fun _ => rfl) (by simpa using h)
        · simp at h

/-- The token of `ScanLines` for data that starts with a line and its line
feed. -/
theorem ScanLines_at_newline (l rest : List UInt8) (atEOF : Bool) (hl : (10 : UInt8) ∉ l) :
    ScanLines (l ++ 10 :: rest) atEOF = (l.length + 1, some (dropCR l)) := by
  have hidx : (l ++ 10 :: rest).indexOf 10 = l.length := by
    rw [List.indexOf_append_of_not_mem hl, List.indexOf_cons_self]
    rfl
  have hlen : (l ++ 10 :: rest).length = l.length + (rest.length + 1) := by simp
  simp only [ScanLines, hidx, List.take_left]
  rw [if_neg (by simp), if_pos (by rw [hlen]; omega)]

/-- The tokens of a scanner with `ScanLines` over lines that end in a line
feed and fit the buffer: each line without one trailing carriage return,
and no error. -/
theorem scanTokens_lines (maxTokenSize : Nat) :
    ∀ (lines : List (List UInt8)) (fuel : Nat), 0 < maxTokenSize →
      (∀ l ∈ lines, (10 : UInt8) ∉ l ∧ l.length < maxTokenSize) →
      ((lines.map (fun l => l ++ [10])).flatten).length < fuel →
      scanTokens ScanLines maxTokenSize fuel (lines.map (fun l => l ++ [10])).flatten
        = (lines.map dropCR, none) := by
  intro lines
  induction lines with
  | nil =>
    intro fuel hmax _ hfuel
    have hnil : ∀ atEOF, ScanLines [] atEOF = (0, none) := by
      intro atEOF
      cases atEOF <;> rfl
    cases fuel with
    | zero => simp at hfuel
    | succ fuel =>
      simp only [List.map_nil, List.flatten_nil, scanTokens, List.take_nil, hnil, List.length_nil]
      rw [if_neg (by omega)]
  | cons l ls ih =>
    intro fuel hmax hlines hfuel
    have hl := hlines l (List.mem_cons_self _ _)
    have hdata : ((l :: ls).map (fun l => l ++ [10])).flatten
        = l ++ 10 :: (ls.map (fun l => l ++ [10])).flatten := by
      simp
    rw [hdata] at hfuel ⊢
    cases fuel with
    | zero => simp at hfuel
    | succ fuel =>
      have htake : (l ++ 10 :: (ls.map (fun l => l ++ [10])).flatten).take maxTokenSize
          = l ++ 10 :: ((ls.map (fun l => l ++ [10])).flatten).take (maxTokenSize - l.length - 1) := by
        rw [List.take_append_eq_append_take, List.take_of_length_le (by omega)]
        have : maxTokenSize - l.length = (maxTokenSize - l.length - 1) + 1 := by omega
        rw [this, List.take_succ_cons]
        simp
      have hdrop : (l ++ 10 :: (ls.map (fun l => l ++ [10])).flatten).drop (l.length + 1)
          = (ls.map (fun l => l ++ [10])).flatten := by
        rw [List.drop_append_eq_append_drop]
        simp
      have hrest := ih fuel hmax (fun x hx => hlines x (List.mem_cons_of_mem _ hx))
        (by simp only [List.length_append, List.length_cons] at hfuel; omega)
      unfold scanTokens
      rw [htake, ScanLines_at_newline l _ false hl.1]
      simp only [hdrop, hrest, List.map_cons]

/-- With the no-op transformer the loop of `goHandleMessages` writes every
token for which an entry can be made, as it is. -/
theorem Tcp.handleTokens_nop (charsets : Helper.Charsets) (newEntryFails : List UInt8 → Bool)
    (fuel : Nat) :
    ∀ (tokens : List (List UInt8)) (d : Helper.Decoder), d.decoder = .Nop →
      0 < d.decodeBuffer → (∀ r ∈ tokens, r.length < fuel) →
      Tcp.handleTokens charsets newEntryFails fuel d tokens
        = some (tokens.filter (fun r => !newEntryFails r)) := by
  intro tokens
  induction tokens with
  | nil => intro d _ _ _; rfl
  | cons r rest ih =>
    intro d hdec hpos hlen
    have hr := hlen r (List.mem_cons_self _ _)
    obtain ⟨d1, h1, _, h3, h4⟩ := Helper.decode_nop charsets r fuel d hdec hpos (by omega)
      (by omega)
    have hrest := ih d1 h3 (by omega) (fun x hx => hlen x (List.mem_cons_of_mem _ hx))
    unfold Tcp.handleTokens
    rw [h1]
    simp only [hrest, List.filter_cons]
    cases newEntryFails r <;> simp

/-- A token of a scanner with `ScanLines` is no longer than the input. -/
theorem scanTokens_length (maxTokenSize fuel : Nat) (data r : List UInt8)
    (h : r ∈ (scanTokens ScanLines maxTokenSize fuel data).1) : r.length ≤ data.length := by
  obtain ⟨_, pre, line, post, hd, _, _, _, hr⟩ := scanTokens_records maxTokenSize fuel data r h
  have h1 := dropCR_length_le line
  rw [hr, hd]
  simp only [List.length_append]
  omega

/-- C17. In line mode every record that the scanner emits with
`bufio.ScanLines`, for every input and every buffer limit, has no line feed
and is one line of the input without its terminator and without one
trailing carriage return: `dropCR` takes one carriage return off the end and
leaves a line without one as it is.  The inputs `message\n` and
`message\r\n` give exactly the one record `message`, from the scanner of the
file source and, with the no-op decoder, from `goHandleMessages` of the TCP
input, which writes every token for which an entry can be made. -/
theorem line_mode_records (maxTokenSize fuel : Nat) (data r : List UInt8) :
    (r ∈ (scanTokens ScanLines maxTokenSize fuel data).1 →
      (10 : UInt8) ∉ r ∧
      ∃ pre line post, data = pre ++ line ++ post ∧ (10 : UInt8) ∉ line ∧
        (pre = [] ∨ pre.getLast? = some 10) ∧ (post = [] ∨ post.head? = some 10) ∧
        r = dropCR line) ∧
    (r ∈ (scanLines maxTokenSize data).1 → (10 : UInt8) ∉ r) ∧
    dropCR (r ++ [13]) = r ∧
    (r.getLast? ≠ some 13 → dropCR r = r) ∧
    scanLines MaxScanTokenSize [109, 101, 115, 115, 97, 103, 101, 10]
      = ([[109, 101, 115, 115, 97, 103, 101]], none) ∧
    scanLines MaxScanTokenSize [109, 101, 115, 115, 97, 103, 101, 13, 10]
      = ([[109, 101, 115, 115, 97, 103, 101]], none) ∧
    (∀ (charsets : Helper.Charsets) (newEntryFails : List UInt8 → Bool) (t : Tcp.InputOperator),
      t.decoder.Encoding = .Nop → data.length < fuel →
      Tcp.InputOperator.goHandleMessages charsets newEntryFails fuel t data
        = some ((scanLines MaxScanTokenSize data).1.filter (fun m => !newEntryFails m))) := by
  refine ⟨scanTokens_records maxTokenSize fuel data r,
    fun h => (scanTokens_records maxTokenSize _ data r h).1,
    dropCR_append_cr r, dropCR_of_no_cr r, by decide, by decide, ?_⟩
  intro charsets newEntryFails t henc hfuel
  unfold Tcp.InputOperator.goHandleMessages
  apply Tcp.handleTokens_nop
  · simp only [Helper.Decoder.Copy]; exact henc
  · simp [Helper.Decoder.Copy]
  · intro x hx
    have := scanTokens_length MaxScanTokenSize _ data x hx
    omega

/-- C17 at the input `message\r\n`: the record `message` has no line feed
and is a line of the input, and the TCP input writes the tokens of the
scanner. -/
theorem line_mode_records_witness :
    ((10 : UInt8) ∉ ([109, 101, 115, 115, 97, 103, 101] : List UInt8) ∧
      ∃ pre line post,
        ([109, 101, 115, 115, 97, 103, 101, 13, 10] : List UInt8) = pre ++ line ++ post ∧
        (10 : UInt8) ∉ line ∧ (pre = [] ∨ pre.getLast? = some 10) ∧
        (post = [] ∨ post.head? = some 10) ∧
        ([109, 101, 115, 115, 97, 103, 101] : List UInt8) = dropCR line) ∧
    Tcp.InputOperator.goHandleMessages Sample.charsets (fun _ => false) 10 Sample.tcpInput
        [109, 101, 115, 115, 97, 103, 101, 13, 10]
      = some ((scanLines MaxScanTokenSize [109, 101, 115, 115, 97, 103, 101, 13, 10]).1.filter
          (fun m => !(fun _ => false) m)) :=
  ⟨(line_mode_records MaxScanTokenSize 10 [109, 101, 115, 115, 97, 103, 101, 13, 10]
      [109, 101, 115, 115, 97, 103, 101]).1 (by decide),
    (line_mode_records MaxScanTokenSize 10 [109, 101, 115, 115, 97, 103, 101, 13, 10]
      [109, 101, 115, 115, 97, 103, 101]).2.2.2.2.2.2 Sample.charsets (fun _ => false)
      Sample.tcpInput rfl (by decide)⟩

/-- Data without a line feed gives `ScanLines` no token before the end of
the input. -/
theorem ScanLines_no_newline (d : List UInt8) (h : (10 : UInt8) ∉ d) :
    ScanLines d false = (0, none) := by
  have hidx : d.indexOf 10 = d.length := List.indexOf_of_not_mem h
  simp [ScanLines, hidx]

/-- A scanner with `ScanLines` fails with `ErrTooLong` when the buffer
fills up without a line feed. -/
theorem scanLines_too_long (maxTokenSize : Nat) (data : List UInt8)
    (h1 : (10 : UInt8) ∉ data.take maxTokenSize) (h2 : maxTokenSize ≤ data.length) :
    scanLines maxTokenSize data = ([], some .ErrTooLong) := by
  unfold scanLines scanTokens
  rw [ScanLines_no_newline _ h1]
  simp [h2]

/-- C18, as stated, fails: the line `a\r\n` gives the record `a`, which with
the boundary `\n` is `a\n` and not the three bytes written (`ScanLines`
advances over three bytes and returns a token of one); and a line of 65536
bytes gives no record with the buffer limit of `bufio.NewScanner`. -/
theorem carriage_return_not_restored :
    scanLines MaxScanTokenSize [97, 13, 10] = ([[97]], none) ∧
    ScanLines [97, 13, 10] false = (3, some [97]) ∧
    (([[97]] : List (List UInt8)).map (fun r => r ++ [10])).flatten = [97, 10] ∧
    ([97, 10] : List UInt8) ≠ [97, 13, 10] ∧
    scanLines MaxScanTokenSize (List.replicate 65536 97 ++ [10]) = ([], some .ErrTooLong) := by
  refine ⟨by decide, by decide, by decide, by decide, ?_⟩
  have hmax : MaxScanTokenSize = 65536 := by decide
  have htake : (List.replicate 65536 (97 : UInt8) ++ [10]).take 65536
      = List.replicate 65536 97 :=
    List.take_left' (List.length_replicate _ _)
  apply scanLines_too_long
  · rw [hmax, htake]
    intro hmem
    have := List.eq_of_mem_replicate hmem
    exact absurd this (by decide)
  · rw [hmax, List.length_append, List.length_replicate]
    exact Nat.le_succ _

/-- C18, amended.  For newline-terminated lines that fit the buffer of the
scanner, the records of the line-mode split `bufio.ScanLines` are the lines
without one trailing carriage return each, in order and without error; when
no line ends in a carriage return, the records, each followed by `\n`,
concatenate to exactly the bytes written. -/
theorem line_round_trip (maxTokenSize : Nat) (lines : List (List UInt8))
    (hmax : 0 < maxTokenSize)
    (hlines : ∀ l ∈ lines, (10 : UInt8) ∉ l ∧ l.length < maxTokenSize) :
    scanLines maxTokenSize (lines.map (fun l => l ++ [10])).flatten
      = (lines.map dropCR, none) ∧
    ((∀ l ∈ lines, l.getLast? ≠ some 13) →
      ((scanLines maxTokenSize (lines.map (fun l => l ++ [10])).flatten).1.map
          (fun r => r ++ [10])).flatten
        = (lines.map (fun l => l ++ [10])).flatten) := by
  have h1 : scanLines maxTokenSize (lines.map (fun l => l ++ [10])).flatten
      = (lines.map dropCR, none) :=
    scanTokens_lines maxTokenSize lines _ hmax hlines (Nat.lt_succ_self _)
  refine ⟨h1, fun hcr => ?_⟩
  rw [h1]
  have hid : lines.map dropCR = lines := by
    conv_rhs => rw [← List.map_id lines]
    apply List.map_congr_left
    intro l hl
    exact dropCR_of_no_cr l (hcr l hl)
  simp only [hid]

/-- C18, amended, at the two lines `hi` and `a`. -/
theorem line_round_trip_witness :
    scanLines MaxScanTokenSize ([[104, 105], [97]].map (fun l => l ++ [10])).flatten
      = ([[104, 105], [97]].map dropCR, none) ∧
    ((scanLines MaxScanTokenSize ([[104, 105], [97]].map (fun l => l ++ [10])).flatten).1.map
        (fun r => r ++ [10])).flatten
      = ([[104, 105], [97]].map (fun l => l ++ [10])).flatten :=
  ⟨(line_round_trip MaxScanTokenSize [[104, 105], [97]] (by decide) (by decide)).1,
    (line_round_trip MaxScanTokenSize [[104, 105], [97]] (by decide) (by decide)).2
      (by decide)⟩

end Claims

end Stanza
